import Mathlib

/-
Verification development for the pronto compiler front-end
(src/compiler/lexer.ts, parser.ts, ast.ts, codegen.ts).

The definitions below are a shallow embedding of the TypeScript source:
each Lean function mirrors one function of the source, keeping its name
where Lean allows.  Strings are generated exactly as the source emits
them (literal braces are written with the \x7b / \x7d escapes, an
apostrophe with \x27).
-/

namespace Pronto

/-
Token model.  Only the token kinds that the parser's statement dispatch
and the destructuring lookahead (parser.ts, isDestructuringAssignment)
inspect are distinguished; every other token kind behaves identically
there and is collapsed into `other`.
-/

inductive Tok where
  | kwReturn | kwIf | kwFor | kwLoop
  | lcurly | rcurly | lparen | rparen
  | colon | comma | equals | dot
  | identTok | stringTok | numberTok | booleanTok
  | other
  | eof
deriving DecidableEq

/-
`la toks n` is chevrotain's `this.LA(n)`: the n-th (1-based) token of the
remaining input; past the end chevrotain returns an EOF token.
-/
def la (toks : List Tok) (n : Nat) : Tok :=
  toks.getD (n - 1) Tok.eof

/- One step of the brace counter in isDestructuringAssignment. -/
def scanStep (t : Tok) (braceCount : Nat) : Nat :=
  if t = Tok.lcurly then braceCount + 1
  else if t = Tok.rcurly then braceCount - 1
  else braceCount

/-
The `while (braceCount > 0 && i < 20)` loop of
PromptLangParser.isDestructuringAssignment (parser.ts:498-508); returns
the final (braceCount, i).  The loop variable i only grows, so the
condition `i < 20` is carried by the structurally decreasing `fuel`
argument, kept equal to 20 - i by the wrapper below.
-/
def scanBracesAux (toks : List Tok) : Nat → Nat → Nat → Nat × Nat
  | i, braceCount, 0 => (braceCount, i)
  | i, braceCount, fuel + 1 =>
    if 0 < braceCount then
      scanBracesAux toks (i + 1) (scanStep (la toks i) braceCount) fuel
    else (braceCount, i)

def scanBraces (toks : List Tok) (i braceCount : Nat) : Nat × Nat :=
  scanBracesAux toks i braceCount (20 - i)

/- PromptLangParser.isDestructuringAssignment (parser.ts:487-516). -/
def isDestructuringAssignment (toks : List Tok) : Bool :=
  if la toks 1 ≠ Tok.lcurly then false
  else
    let r := scanBraces toks 2 1
    if r.1 = 0 then decide (la toks r.2 = Tok.equals) else false

/-
Declarative restatement of the gate, following the spec's words: track
brace-nesting depth over the tokens after the opening `\x7b`; if the depth
returns to zero within the fixed budget (the loop examines at most the
tokens LA(2)..LA(19)) and the very next token is `=`, classify as
destructuring.  `braceDepth toks n` is the depth after the first n
scanned tokens (the n-th scanned token is LA(n+1)).
-/
def braceDepth (toks : List Tok) : Nat → Nat
  | 0 => 1
  | n + 1 => scanStep (la toks (n + 2)) (braceDepth toks n)

def specDestructuring (toks : List Tok) : Bool :=
  if la toks 1 = Tok.lcurly then
    match (List.range 19).find? (fun n => braceDepth toks n = 0) with
    | some n => decide (la toks (n + 2) = Tok.equals)
    | none => false
  else false

inductive StmtKind where
  | returnStmt | ifStmt | forStmt | loopStmt
  | assignment | destructuring | exprStmt
deriving DecidableEq

/-
The `statement` rule's alternative dispatch (parser.ts:216-229): the
keyword-led alternatives, then assignment (chevrotain selects it by the
lookahead Identifier `=`), then the gated destructuring alternative,
then expression-statement as the fall-through.
-/
def classifyStatement (toks : List Tok) : StmtKind :=
  match la toks 1 with
  | Tok.kwReturn => StmtKind.returnStmt
  | Tok.kwIf => StmtKind.ifStmt
  | Tok.kwFor => StmtKind.forStmt
  | Tok.kwLoop => StmtKind.loopStmt
  | _ =>
    if la toks 1 = Tok.identTok ∧ la toks 2 = Tok.equals then StmtKind.assignment
    else if isDestructuringAssignment toks then StmtKind.destructuring
    else StmtKind.exprStmt

/-
AST (ast.ts).  The object-literal property list carries either a keyed
property (`key: value`, shorthand = false) or a shorthand property
(shorthand = true, no value), exactly the two shapes the transformer
builds.  Lists of expressions and of properties are dedicated mutual
inductives so that all recursion over the tree is structural.
-/

inductive LogOp where
  | and | or
deriving DecidableEq

mutual
inductive Expr where
  | funcCall (callee : String) (args : ExprList)
  | methodCall (obj : Expr) (method : String) (args : ExprList)
  | objectLit (props : PropList)
  | arrayLit (elems : ExprList)
  | member (obj : Expr) (property : String)
  | ident (name : String)
  | str (value : String)
  | num (value : Int)
  | bool (value : Bool)
  | comparison (op : String) (left right : Expr)
  | logical (op : LogOp) (left right : Expr)
  | unaryNot (argument : Expr)

inductive ExprList where
  | nil
  | cons (e : Expr) (es : ExprList)

inductive PropList where
  | nil
  | consVal (key : String) (value : Expr) (rest : PropList)
  | consShort (key : String) (rest : PropList)
end

mutual
inductive Stmt where
  | ret (e : Expr)
  | ifS (condition : Expr) (body : StmtList)
  | forS (varName : String) (iterable : Expr) (body : StmtList)
  | loopS (body : StmtList)
  | assign (left : String) (right : Expr)
  | destructuring (left : List String) (right : Expr)
  | exprStmt (e : Expr)

inductive StmtList where
  | nil
  | cons (s : Stmt) (rest : StmtList)
end

/- Type / TypeObject (ast.ts:212-224). -/
inductive Ty where
  | mk (name : String) (genericType : Option Ty)

structure TypeObject where
  properties : List (String × Ty)

structure PromptImport where
  name : String
  promptPath : String
  input : TypeObject
  returns : TypeObject

structure SymbolImport where
  symbols : List String
  fromPath : String

structure FlowDefinition where
  name : String
  parameters : List (String × Ty)
  body : StmtList

inductive Decl where
  | importPrompt (p : PromptImport)
  | importSymbol (s : SymbolImport)
  | flowDefinition (f : FlowDefinition)

structure Program where
  body : List Decl

/-
ASTTransformer.transform (ast.ts:228-253): the chevrotain CST groups
children by rule name, so the transformer pushes every importStatement
child (in source order) and then every flowDefinition child (in source
order) — the source-level interleaving of imports and flows is lost.
-/
def isImportDecl : Decl → Bool
  | Decl.importPrompt _ => true
  | Decl.importSymbol _ => true
  | Decl.flowDefinition _ => false

def transform (src : List Decl) : Program :=
  ⟨src.filter isImportDecl ++ src.filter (fun d => !(isImportDecl d))⟩

/-
ASTTransformer.transformLogicalExpression (ast.ts:413-437).  The CST
groups the And tokens and the Or tokens into separate child arrays, so
the loop sees only the counts: iteration i uses operator `and` when
i < children.And.length and `or` afterwards, with right operand
notExpression[i+1].  `first` is the transformed notExpression[0], `ops`
the operator tokens in source order (so `ops.count .and` is
children.And.length), `operands` the transformed notExpression[1..].
-/
def transformLogicalExpression (first : Expr) (ops : List LogOp) (operands : List Expr) : Expr :=
  let nAnd := ops.count LogOp.and
  (List.range ops.length).foldl
    (fun e i =>
      Expr.logical (if i < nAnd then LogOp.and else LogOp.or) e
        (operands.getD i (Expr.bool false)))
    first

/- Truth-table evaluation of a generated logical tree over boolean literals. -/
def evalLogical : Expr → Bool
  | Expr.bool b => b
  | Expr.logical LogOp.and l r => evalLogical l && evalLogical r
  | Expr.logical LogOp.or l r => evalLogical l || evalLogical r
  | Expr.unaryNot a => !(evalLogical a)
  | _ => false

def applyLogOp : LogOp → Bool → Bool → Bool
  | LogOp.and, a, b => a && b
  | LogOp.or, a, b => a || b

/- Flat left-to-right evaluation of the source chain, in encounter order. -/
def flatEval (b : Bool) : List (LogOp × Bool) → Bool
  | [] => b
  | (op, b2) :: rest => flatEval (applyLogOp op b b2) rest

/-
Code generator (codegen.ts).  The instance fields of CodeGenerator
become a state record; JS Map.set / Map.get become alistSet / alistGet
(set replaces an existing key in place, else appends), JS Set.add
becomes setAdd (append if absent).
-/

def alistSet {α : Type} (m : List (String × α)) (k : String) (v : α) : List (String × α) :=
  match m with
  | [] => [(k, v)]
  | (k', v') :: rest => if k' = k then (k, v) :: rest else (k', v') :: alistSet rest k v

def alistGet {α : Type} (m : List (String × α)) (k : String) : Option α :=
  match m with
  | [] => none
  | (k', v) :: rest => if k' = k then some v else alistGet rest k

def setAdd (s : List String) (x : String) : List String :=
  if x ∈ s then s else s ++ [x]

def setContains (s : List String) (x : String) : Bool :=
  decide (x ∈ s)

structure GenState where
  importedPrompts : List (String × PromptImport)
  importedSymbols : List (String × String)
  definedFlows : List String
  hasMainFlow : Bool
  declaredVariables : List String
  flowParameters : List (String × List String)

def initGenState : GenState :=
  ⟨[], [], [], false, [], []⟩

/- The parts of the generator state that expression generation reads. -/
structure Env where
  importedPrompts : List (String × PromptImport)
  definedFlows : List String
  flowParameters : List (String × List String)

def envOf (s : GenState) : Env :=
  ⟨s.importedPrompts, s.definedFlows, s.flowParameters⟩

def builtinFunctions : List String :=
  ["print", "stringify", "parse"]

/-
`extractParams` realizes the loop
`paramNames.map(paramName => ...)` of generateFunctionCall /
generateAsyncCall (codegen.ts:441-447, 518-524): walk the flow's
parameter names in declared order; a name with no matching property
throws the missing-parameter error; otherwise the property's generated
value (precomputed in `propsMap`, see generatePropsMapAux) is used.
-/
def extractParams (callee : String) (propsMap : List (String × Except String String)) :
    List String → Except String (List String)
  | [] => Except.ok []
  | p :: ps =>
    match alistGet propsMap p with
    | none =>
      Except.error
        ("Missing required parameter \x27" ++ p ++ "\x27 in call to flow \x27" ++ callee ++ "\x27")
    | some r => do
      let s ← r
      let rest ← extractParams callee propsMap ps
      Except.ok (s :: rest)

/- Whether an argument list is empty (funcCall.arguments.length === 0). -/
def exprListIsNil : ExprList → Bool
  | ExprList.nil => true
  | ExprList.cons _ _ => false

mutual
/-
generateNode restricted to expression nodes (codegen.ts:100-149 dispatch
plus the per-node generators).  The FunctionCall arm is
CodeGenerator.generateFunctionCall (codegen.ts:404-467): prompt calls
and flow calls are awaited, builtins dispatch through _builtins,
anything else is a plain call.  The three candidate generations
(first argument only / flow-style extraction / all arguments) are
computed as pure values up front and each branch uses the one the
source uses, so that the recursion stays structural; since generation
is pure this is observationally the code's branch-local generation.
-/
def generateExpr (env : Env) : Expr → Except String String
  | Expr.funcCall callee args =>
    let first := generateFirstArg env args
    let extracted := generateFlowObjectStyle env callee args
    let allStrs := generateArgs env args
    if (alistGet env.importedPrompts callee).isSome then
      -- prompt call: always awaited; zero arguments synthesize an empty
      -- object, otherwise only arguments[0] is generated and passed through
      if exprListIsNil args then Except.ok ("await " ++ callee ++ "(\x7b\x7d)")
      else first.map (fun s => "await " ++ callee ++ "(" ++ s ++ ")")
    else if setContains env.definedFlows callee then
      if exprListIsNil args then Except.ok ("await " ++ callee ++ "()")
      else
        match extracted with
        | some r =>
          -- single object-literal argument: extract values in the flow's
          -- declared parameter order via the property map
          r.map (fun ss => "await " ++ callee ++ "(" ++ String.intercalate ", " ss ++ ")")
        | none =>
          (allStrs).map
            (fun ss => "await " ++ callee ++ "(" ++ String.intercalate ", " ss ++ ")")
    else if callee ∈ builtinFunctions then
      (allStrs).map
        (fun ss => "_builtins." ++ callee ++ "(" ++ String.intercalate ", " ss ++ ")")
    else
      (allStrs).map
        (fun ss => callee ++ "(" ++ String.intercalate ", " ss ++ ")")
  | Expr.methodCall obj method args => do
    let o ← generateExpr env obj
    let ss ← generateArgs env args
    Except.ok (o ++ "." ++ method ++ "(" ++ String.intercalate ", " ss ++ ")")
  | Expr.objectLit props =>
    -- CodeGenerator.generateObjectLiteral (codegen.ts:540-556), inlined
    match props with
    | PropList.nil => Except.ok "\x7b\x7d"
    | _ =>
      (generateProps env props).map
        (fun ss => "\x7b " ++ String.intercalate ", " ss ++ " \x7d")
  | Expr.arrayLit elems =>
    match elems with
    | ExprList.nil => Except.ok "[]"
    | _ =>
      (generateArgs env elems).map (fun ss => "[" ++ String.intercalate ", " ss ++ "]")
  | Expr.member obj property =>
    (generateExpr env obj).map (fun o => o ++ "." ++ property)
  | Expr.ident name => Except.ok name
  | Expr.str value => Except.ok ("\"" ++ value ++ "\"")
  | Expr.num value => Except.ok (toString value)
  | Expr.bool value => Except.ok (if value then "true" else "false")
  | Expr.comparison op l r => do
    let lc ← generateExpr env l
    let rc ← generateExpr env r
    Except.ok (lc ++ " " ++ op ++ " " ++ rc)
  | Expr.logical op l r => do
    let lc ← generateExpr env l
    let rc ← generateExpr env r
    Except.ok (lc ++ " " ++ (if op = LogOp.and then "&&" else "||") ++ " " ++ rc)
  | Expr.unaryNot a =>
    (generateExpr env a).map (fun s => "!" ++ s)

/- Maps generateNode over an argument/element list (joined by the callers). -/
def generateArgs (env : Env) : ExprList → Except String (List String)
  | ExprList.nil => Except.ok []
  | ExprList.cons e es => do
    let s ← generateExpr env e
    let rest ← generateArgs env es
    Except.ok (s :: rest)

/-
Generation of `funcCall.arguments[0]` (codegen.ts:415); the value is
only consulted when the argument list is nonempty.
-/
def generateFirstArg (env : Env) : ExprList → Except String String
  | ExprList.nil => Except.ok ""
  | ExprList.cons a _ => generateExpr env a

/-
The `arguments.length === 1 && arguments[0].type === 'ObjectLiteral'`
branch of a flow call (codegen.ts:427-449): positional extraction of
the flow's parameters from the single object-literal argument;
`none` when the argument list has another shape.
-/
def generateFlowObjectStyle (env : Env) (callee : String) :
    ExprList → Option (Except String (List String))
  | ExprList.cons (Expr.objectLit props) ExprList.nil =>
    some (extractParams callee (generatePropsMapAux env [] props)
      ((alistGet env.flowParameters callee).getD []))
  | _ => none

/-
The `propsMap` of generateFunctionCall (codegen.ts:434-438): a Map built
with Map.set over the properties in order (a later duplicate key
replaces an earlier one).  Each entry holds the generated text of
`prop.value || prop.key`: the value expression for a keyed property, the
identifier itself (its name) for a shorthand property.
-/
def generatePropsMapAux (env : Env) (m : List (String × Except String String)) :
    PropList → List (String × Except String String)
  | PropList.nil => m
  | PropList.consVal key value rest =>
    generatePropsMapAux env (alistSet m key (generateExpr env value)) rest
  | PropList.consShort key rest =>
    generatePropsMapAux env (alistSet m key (Except.ok key)) rest

/- The property loop of CodeGenerator.generateObjectLiteral (codegen.ts:545-553). -/
def generateProps (env : Env) : PropList → Except String (List String)
  | PropList.nil => Except.ok []
  | PropList.consVal key value rest => do
    let v ← generateExpr env value
    let tail ← generateProps env rest
    Except.ok ((key ++ ": " ++ v) :: tail)
  | PropList.consShort key rest => do
    let tail ← generateProps env rest
    Except.ok (key :: tail)
end

/- CodeGenerator.isAsyncCall (codegen.ts:470-479). -/
def isAsyncCall (env : Env) : Expr → Bool
  | Expr.funcCall callee _ =>
    (alistGet env.importedPrompts callee).isSome || setContains env.definedFlows callee
  | _ => false

/-
CodeGenerator.generateAsyncCall (codegen.ts:482-537).  Its prompt and
flow branches repeat generateFunctionCall's; the fall-through emits an
awaited call (it is only reached when isAsyncCall held).
-/
def generateAsyncCall (env : Env) (callee : String) (args : ExprList) : Except String String :=
  if (alistGet env.importedPrompts callee).isSome then
    match args with
    | ExprList.nil => Except.ok ("await " ++ callee ++ "(\x7b\x7d)")
    | ExprList.cons a _ =>
      (generateExpr env a).map (fun s => "await " ++ callee ++ "(" ++ s ++ ")")
  else if setContains env.definedFlows callee then
    match args with
    | ExprList.nil => Except.ok ("await " ++ callee ++ "()")
    | ExprList.cons (Expr.objectLit props) ExprList.nil =>
      let paramNames := (alistGet env.flowParameters callee).getD []
      let propsMap := generatePropsMapAux env [] props
      (extractParams callee propsMap paramNames).map
        (fun ss => "await " ++ callee ++ "(" ++ String.intercalate ", " ss ++ ")")
    | _ =>
      (generateArgs env args).map
        (fun ss => "await " ++ callee ++ "(" ++ String.intercalate ", " ss ++ ")")
  else
    (generateArgs env args).map
      (fun ss => "await " ++ callee ++ "(" ++ String.intercalate ", " ss ++ ")")

/-
The `isAsyncCall ? generateAsyncCall : generateNode` pattern shared by
generateReturnStatement, generateAssignment,
generateDestructuringAssignment and generateExpressionStatement
(codegen.ts:288-292, 346-350, 373-377, 395-400).
-/
def rhsCode (env : Env) : Expr → Except String String
  | Expr.funcCall callee args =>
    if (alistGet env.importedPrompts callee).isSome || setContains env.definedFlows callee then
      generateAsyncCall env callee args
    else generateExpr env (Expr.funcCall callee args)
  | e => generateExpr env e

mutual
/-
generateNode restricted to statement nodes.  The second component is
the generator's declaredVariables set after the statement (it threads
through block bodies exactly as the mutable instance field does).
-/
def generateStmt (env : Env) (declared : List String) :
    Stmt → (Except String String) × List String
  | Stmt.ret e => ((rhsCode env e).map (fun s => "return " ++ s), declared)
  | Stmt.ifS condition body =>
    (match generateExpr env condition with
     | Except.error er => (Except.error er, declared)
     | Except.ok c =>
       match generateStmtSeq env declared body with
       | (Except.error er, d') => (Except.error er, d')
       | (Except.ok b, d') => (Except.ok ("if (" ++ c ++ ") \x7b" ++ b ++ "\n\x7d"), d'))
  | Stmt.forS varName iterable body =>
    (match generateExpr env iterable with
     | Except.error er => (Except.error er, declared)
     | Except.ok it =>
       match generateStmtSeq env declared body with
       | (Except.error er, d') => (Except.error er, d')
       | (Except.ok b, d') =>
         (Except.ok ("for (const " ++ varName ++ " of " ++ it ++ ") \x7b" ++ b ++ "\n\x7d"), d'))
  | Stmt.loopS body =>
    (match generateStmtSeq env declared body with
     | (Except.error er, d') => (Except.error er, d')
     | (Except.ok b, d') => (Except.ok ("while (true) \x7b" ++ b ++ "\n\x7d"), d'))
  | Stmt.assign left right =>
    (match rhsCode env right with
     | Except.error er => (Except.error er, declared)
     | Except.ok rc =>
       if left ∈ declared then (Except.ok (left ++ " = " ++ rc), declared)
       else (Except.ok ("let " ++ left ++ " = " ++ rc), setAdd declared left))
  | Stmt.destructuring left right =>
    (match rhsCode env right with
     | Except.error er => (Except.error er, declared)
     | Except.ok rc =>
       (Except.ok ("const \x7b " ++ String.intercalate ", " left ++ " \x7d = " ++ rc),
        left.foldl setAdd declared))
  | Stmt.exprStmt e => (rhsCode env e, declared)

/-
Block bodies of if/for/loop (codegen.ts:300-303, 316-318, 329-331):
each inner statement is emitted as '\n' + indent(1) + code + ';'.
-/
def generateStmtSeq (env : Env) (declared : List String) :
    StmtList → (Except String String) × List String
  | StmtList.nil => (Except.ok "", declared)
  | StmtList.cons s rest =>
    match generateStmt env declared s with
    | (Except.error er, d') => (Except.error er, d')
    | (Except.ok sc, d') =>
      match generateStmtSeq env d' rest with
      | (Except.error er, d'') => (Except.error er, d'')
      | (Except.ok rc, d'') => (Except.ok ("\n  " ++ sc ++ ";" ++ rc), d'')
end

/-
The flow-body loop of generateFlowDefinition (codegen.ts:239-256): each
statement is emitted as '\n' + indent(2) + code + ';'.
-/
def generateFlowStmts (env : Env) (declared : List String) :
    StmtList → (Except String String) × List String
  | StmtList.nil => (Except.ok "", declared)
  | StmtList.cons s rest =>
    match generateStmt env declared s with
    | (Except.error er, d') => (Except.error er, d')
    | (Except.ok sc, d') =>
      match generateFlowStmts env d' rest with
      | (Except.error er, d'') => (Except.error er, d'')
      | (Except.ok rc, d'') => (Except.ok ("\n    " ++ sc ++ ";" ++ rc), d'')

/- JSON.stringify of the transformer's Identifier / Type / TypeObject objects. -/
def jsonIdent (name : String) : String :=
  "\x7b\"type\":\"Identifier\",\"name\":\"" ++ name ++ "\"\x7d"

def jsonOfTy : Ty → String
  | Ty.mk name none =>
    "\x7b\"type\":\"Type\",\"name\":" ++ jsonIdent name ++ "\x7d"
  | Ty.mk name (some g) =>
    "\x7b\"type\":\"Type\",\"name\":" ++ jsonIdent name ++ ",\"genericType\":" ++ jsonOfTy g ++ "\x7d"

def jsonOfTypeObject (t : TypeObject) : String :=
  "\x7b\"type\":\"TypeObject\",\"properties\":[" ++
    String.intercalate ","
      (t.properties.map
        (fun kv => "\x7b\"key\":" ++ jsonIdent kv.1 ++ ",\"value\":" ++ jsonOfTy kv.2 ++ "\x7d")) ++
    "]\x7d"

/- CodeGenerator.generatePromptImport (codegen.ts:175-198). -/
def generatePromptImport (s : GenState) (p : PromptImport) : String × GenState :=
  let s' := { s with importedPrompts := alistSet s.importedPrompts p.name p }
  let inputType := jsonOfTypeObject p.input
  let returnType := jsonOfTypeObject p.returns
  ("// Prompt import: " ++ p.name ++ " from " ++ p.promptPath ++
   "\nconst " ++ p.name ++ " = async function(input) \x7b" ++
   "\n  // Validate input against expected type" ++
   "\n  const validatedInput = _promptRuntime.validateType(input, " ++ inputType ++ ");" ++
   "\n  " ++
   "\n  // Call the prompt with validated input" ++
   "\n  return await _promptRuntime.callPrompt(\"" ++ p.name ++ "\", \"" ++ p.promptPath ++
   "\", validatedInput, " ++ returnType ++ ");" ++
   "\n\x7d;" ++
   "\n_promptRegistry[\"" ++ p.name ++ "\"] = \x7b" ++
   "\n  path: \"" ++ p.promptPath ++ "\"," ++
   "\n  inputType: " ++ inputType ++ "," ++
   "\n  returnType: " ++ returnType ++
   "\n\x7d;", s')

/- CodeGenerator.generateSymbolImport (codegen.ts:201-210). -/
def generateSymbolImport (s : GenState) (si : SymbolImport) : String × GenState :=
  let s' :=
    { s with importedSymbols :=
        si.symbols.foldl (fun m sym => alistSet m sym si.fromPath) s.importedSymbols }
  ("import \x7b " ++ String.intercalate ", " si.symbols ++ " \x7d from \"" ++ si.fromPath ++ "\";",
   s')

/- CodeGenerator.generateFlowDefinition (codegen.ts:213-267). -/
def generateFlowDefinition (s : GenState) (flow : FlowDefinition) :
    (Except String String) × GenState :=
  -- reset declared variables for this flow and seed them with its parameters
  let declared0 := flow.parameters.map Prod.fst
  let params := String.intercalate ", " (flow.parameters.map Prod.fst)
  let s1 :=
    { s with
      declaredVariables := declared0
      definedFlows := setAdd s.definedFlows flow.name
      hasMainFlow := s.hasMainFlow || flow.name == "Main" }
  match generateFlowStmts (envOf s1) declared0 flow.body with
  | (Except.error er, d') => (Except.error er, { s1 with declaredVariables := d' })
  | (Except.ok b, d') =>
    (Except.ok
      ("// Flow: " ++ flow.name ++
       "\nasync function " ++ flow.name ++ "(" ++ params ++ ") \x7b" ++
       "\n  try \x7b" ++ b ++
       "\n  \x7d catch (error) \x7b" ++
       "\n    console.error(`Error in flow " ++ flow.name ++ ": $\x7berror.message\x7d`);" ++
       "\n    throw error;" ++
       "\n  \x7d" ++
       "\n\x7d"),
     { s1 with declaredVariables := d' })

/- generateNode on a top-level declaration (ImportStatement or FlowDefinition). -/
def generateDecl (s : GenState) : Decl → (Except String String) × GenState
  | Decl.importPrompt p =>
    let r := generatePromptImport s p
    (Except.ok r.1, r.2)
  | Decl.importSymbol si =>
    let r := generateSymbolImport s si
    (Except.ok r.1, r.2)
  | Decl.flowDefinition f => generateFlowDefinition s f

/-
CodeGenerator.generateProgram (codegen.ts:152-161): every declaration's
block followed by a blank line.
-/
def generateProgramDecls (s : GenState) : List Decl → (Except String String) × GenState
  | [] => (Except.ok "", s)
  | d :: ds =>
    match generateDecl s d with
    | (Except.error er, s') => (Except.error er, s')
    | (Except.ok b, s') =>
      match generateProgramDecls s' ds with
      | (Except.error er, s'') => (Except.error er, s'')
      | (Except.ok rest, s'') => (Except.ok (b ++ "\n\n" ++ rest), s'')

/- The loop body of CodeGenerator.collectDefinedFlows (codegen.ts:87-96). -/
def collectFlowStep (s : GenState) (d : Decl) : GenState :=
  match d with
  | Decl.flowDefinition f =>
    { s with
      definedFlows := setAdd s.definedFlows f.name
      flowParameters := alistSet s.flowParameters f.name (f.parameters.map Prod.fst) }
  | _ => s

/- CodeGenerator.collectDefinedFlows (codegen.ts:86-97). -/
def collectDefinedFlows (s : GenState) (ast : Program) : GenState :=
  ast.body.foldl collectFlowStep s

/-
The state reset at the top of CodeGenerator.generate (codegen.ts:44-49).
Note which fields it clears: hasMainFlow, importedPrompts, and
the importedSymbols, declaredVariables, definedFlows fields — and not
flowParameters.
-/
def resetState (s : GenState) : GenState :=
  { s with
    hasMainFlow := false
    importedPrompts := []
    importedSymbols := []
    declaredVariables := []
    definedFlows := [] }

/- The Main auto-invocation epilogue (codegen.ts:67-79). -/
def mainEpilogue : String :=
  "\n// Auto-execute Main flow" ++
  "\n(async () => \x7b" ++
  "\n  try \x7b" ++
  "\n    console.log(\"Starting Main flow execution...\");" ++
  "\n    await Main();" ++
  "\n    console.log(\"Main flow execution completed successfully.\");" ++
  "\n  \x7d catch (error) \x7b" ++
  "\n    console.error(\"Main flow execution failed:\", error);" ++
  "\n    process.exit(1);" ++
  "\n  \x7d" ++
  "\n\x7d)();" ++
  "\n"

/-
CodeGenerator.generate (codegen.ts:43-83).  `runtimeCode` is the
runtime-bootstrap prelude read from runtime.js (an external collaborator
file, passed in here).  The second component is the generator instance's
state after the invocation (the mutable fields persist on the instance).
-/
def generate (runtimeCode : String) (s0 : GenState) (ast : Program) :
    (Except String String) × GenState :=
  let s1 := resetState s0
  let s2 := collectDefinedFlows s1 ast
  match generateProgramDecls s2 ast.body with
  | (Except.error er, s3) => (Except.error er, s3)
  | (Except.ok code, s3) =>
    (Except.ok (runtimeCode ++ code ++ (if s3.hasMainFlow then mainEpilogue else "")), s3)

/- The whole back half of the pipeline: CST-ordered declarations → AST → output. -/
def compileSource (runtimeCode : String) (s : GenState) (src : List Decl) :
    (Except String String) × GenState :=
  generate runtimeCode s (transform src)

/-
Derived views of the generator used to state the layout and registry
properties.
-/

/- The concatenation shape of generateProgram: every block followed by a blank line. -/
def blocksConcat : List String → String
  | [] => ""
  | b :: bs => b ++ "\n\n" ++ blocksConcat bs

/- generateProgramDecls, but collecting the per-declaration blocks as a list. -/
def declBlocks (s : GenState) : List Decl → (Except String (List String)) × GenState
  | [] => (Except.ok [], s)
  | d :: ds =>
    match generateDecl s d with
    | (Except.error er, s') => (Except.error er, s')
    | (Except.ok b, s') =>
      match declBlocks s' ds with
      | (Except.error er, s'') => (Except.error er, s'')
      | (Except.ok bs, s'') => (Except.ok (b :: bs), s'')

def containsMainFlow (ds : List Decl) : Bool :=
  ds.any (fun d =>
    match d with
    | Decl.flowDefinition f => f.name == "Main"
    | _ => false)

def flowNamesOf (ds : List Decl) : List String :=
  ds.filterMap (fun d =>
    match d with
    | Decl.flowDefinition f => some f.name
    | _ => none)

def promptNamesOf (ds : List Decl) : List String :=
  ds.filterMap (fun d =>
    match d with
    | Decl.importPrompt p => some p.name
    | _ => none)

def flowDefsOf (ds : List Decl) : List FlowDefinition :=
  ds.filterMap (fun d =>
    match d with
    | Decl.flowDefinition f => some f
    | _ => none)

/- The prompt-registry update a declaration performs during generation. -/
def promptRegStep (m : List (String × PromptImport)) (d : Decl) :
    List (String × PromptImport) :=
  match d with
  | Decl.importPrompt p => alistSet m p.name p
  | _ => m

/- The flow-parameter registry update of collectFlowStep. -/
def flowParamStep (m : List (String × List String)) (f : FlowDefinition) :
    List (String × List String) :=
  alistSet m f.name (f.parameters.map Prod.fst)

/-
The block generateFlowDefinition emits, as a pure function of the
environment the flow's body is generated under (no state threading):
used to express that every flow body is generated against one fixed
environment.
-/
def flowBlockStr (env : Env) (flow : FlowDefinition) : Except String String :=
  let declared0 := flow.parameters.map Prod.fst
  let params := String.intercalate ", " (flow.parameters.map Prod.fst)
  match generateFlowStmts env declared0 flow.body with
  | (Except.error er, _) => Except.error er
  | (Except.ok b, _) =>
    Except.ok
      ("// Flow: " ++ flow.name ++
       "\nasync function " ++ flow.name ++ "(" ++ params ++ ") \x7b" ++
       "\n  try \x7b" ++ b ++
       "\n  \x7d catch (error) \x7b" ++
       "\n    console.error(`Error in flow " ++ flow.name ++ ": $\x7berror.message\x7d`);" ++
       "\n    throw error;" ++
       "\n  \x7d" ++
       "\n\x7d")

/- All flow blocks of a declaration list, generated under one environment. -/
def flowsBlocksPure (env : Env) : List Decl → Except String (List String)
  | [] => Except.ok []
  | Decl.flowDefinition f :: ds => do
    let b ← flowBlockStr env f
    let rest ← flowsBlocksPure env ds
    Except.ok (b :: rest)
  | _ :: ds => flowsBlocksPure env ds

/-
Last-match property lookup on an object literal (the result of the
Map.set loop building propsMap): `some (some e)` for a keyed property
with value e, `some none` for a shorthand property, `none` if absent.
-/
def findProp : PropList → String → Option (Option Expr)
  | PropList.nil, _ => none
  | PropList.consVal k v rest, p =>
    (match findProp rest p with
     | some r => some r
     | none => if k = p then some (some v) else none)
  | PropList.consShort k rest, p =>
    (match findProp rest p with
     | some r => some r
     | none => if k = p then some none else none)

/-
Positional extraction restated from the spec's words: for each
parameter name in the flow's declared order, the matching property's
value expression (or the identifier itself for a shorthand property) is
generated; a missing name yields the named-missing-parameter error.
-/
def specPositionalArgs (env : Env) (callee : String) (props : PropList) :
    List String → Except String (List String)
  | [] => Except.ok []
  | q :: qs =>
    match findProp props q with
    | none =>
      Except.error
        ("Missing required parameter \x27" ++ q ++ "\x27 in call to flow \x27" ++ callee ++ "\x27")
    | some (some e) => do
      let s ← generateExpr env e
      let rest ← specPositionalArgs env callee props qs
      Except.ok (s :: rest)
    | some none => do
      let s ← generateExpr env (Expr.ident q)
      let rest ← specPositionalArgs env callee props qs
      Except.ok (s :: rest)

/- A generated expression is awaited when its text is `await` + space + rest. -/
def isAwaitedCode (out : String) : Prop :=
  ∃ t, out = "await " ++ t

/-
Agreement of two environments / generator states everywhere the
generator can look: equal prompt and flow registries, and equal
flow-parameter lookups at every name the defined-flow set (or a flow
declaration still to be processed) can route a lookup through.
-/
def EnvAgree (env env' : Env) : Prop :=
  env'.importedPrompts = env.importedPrompts ∧
  env'.definedFlows = env.definedFlows ∧
  ∀ k, setContains env.definedFlows k = true →
    alistGet env'.flowParameters k = alistGet env.flowParameters k

def StateAgree (s s' : GenState) : Prop :=
  s'.importedPrompts = s.importedPrompts ∧
  s'.importedSymbols = s.importedSymbols ∧
  s'.definedFlows = s.definedFlows ∧
  s'.hasMainFlow = s.hasMainFlow ∧
  s'.declaredVariables = s.declaredVariables ∧
  ∀ k, setContains s.definedFlows k = true →
    alistGet s'.flowParameters k = alistGet s.flowParameters k

/- Concrete material for the counterexamples and witnesses. -/

def tyNum : Ty := Ty.mk "number" none

def tyStr : Ty := Ty.mk "string" none

def promptP : PromptImport :=
  ⟨"P", "p.njk", ⟨[("q", tyNum)]⟩, ⟨[("r", tyNum)]⟩⟩

def flowA : FlowDefinition :=
  ⟨"A", [], StmtList.cons (Stmt.ret (Expr.num 1)) StmtList.nil⟩

/- A flow declared before an import in the source text. -/
def srcMixed : List Decl :=
  [Decl.flowDefinition flowA, Decl.importPrompt promptP]

def flowFoo : FlowDefinition :=
  ⟨"Foo", [("a", tyNum)], StmtList.nil⟩

def progFoo : Program :=
  ⟨[Decl.flowDefinition flowFoo]⟩

def flowF : FlowDefinition :=
  ⟨"F", [("x", tyNum), ("y", tyStr)], StmtList.nil⟩

/- flow G() whose body calls F({ x: 5 }), leaving F's y unsupplied. -/
def flowGBad : FlowDefinition :=
  ⟨"G", [],
    StmtList.cons
      (Stmt.exprStmt
        (Expr.funcCall "F"
          (ExprList.cons
            (Expr.objectLit (PropList.consVal "x" (Expr.num 5) PropList.nil))
            ExprList.nil)))
      StmtList.nil⟩

def srcMissing : List Decl :=
  [Decl.flowDefinition flowGBad, Decl.flowDefinition flowF]

/- Tokens of `\x7b a, b \x7d = f()`. -/
def exDestrToks : List Tok :=
  [Tok.lcurly, Tok.identTok, Tok.comma, Tok.identTok, Tok.rcurly, Tok.equals,
   Tok.identTok, Tok.lparen, Tok.rparen]

/- Tokens of `x = \x7b a: 1 \x7d`. -/
def exAssignToks : List Tok :=
  [Tok.identTok, Tok.equals, Tok.lcurly, Tok.identTok, Tok.colon, Tok.numberTok, Tok.rcurly]

def promptRankIdeas : PromptImport :=
  ⟨"RankIdeas", "rank_ideas.njk", ⟨[("ideas", tyNum)]⟩, ⟨[("best", tyNum)]⟩⟩

def envRank : Env :=
  ⟨[("RankIdeas", promptRankIdeas)], [], []⟩

def envFP : Env :=
  ⟨[("P", promptP)], ["F"], [("F", ["x", "y"])]⟩

/- flow H(x) \x7b x = 1  y = 2 \x7d: rebind of a parameter, first binding of a fresh name. -/
def flowParamAssign : FlowDefinition :=
  ⟨"H", [("x", tyNum)],
    StmtList.cons (Stmt.assign "x" (Expr.num 1))
      (StmtList.cons (Stmt.assign "y" (Expr.num 2)) StmtList.nil)⟩

/- flow K(a) \x7b \x7b a, b \x7d = f() \x7d: destructuring that shadows the parameter a. -/
def flowShadow : FlowDefinition :=
  ⟨"K", [("a", tyNum)],
    StmtList.cons (Stmt.destructuring ["a", "b"] (Expr.funcCall "f" ExprList.nil)) StmtList.nil⟩

/-
Helper lemmas.
-/

theorem scanBracesAux_spec (toks : List Tok) :
    ∀ fuel n, n + fuel = 18 →
      scanBracesAux toks (n + 2) (braceDepth toks n) fuel =
        (match (List.range' n (fuel + 1)).find? (fun k => braceDepth toks k = 0) with
         | some k => (0, k + 2)
         | none => (braceDepth toks 18, 20)) := by
  intro fuel
  induction fuel with
  | zero =>
    intro n hn
    have hn18 : n = 18 := by omega
    subst hn18
    by_cases h : braceDepth toks 18 = 0
    · simp [scanBracesAux, List.range', List.find?, h]
    · simp [scanBracesAux, List.range', List.find?, h]
  | succ fuel ih =>
    intro n hn
    by_cases h : braceDepth toks n = 0
    · rw [List.range'_succ]
      simp [scanBracesAux, List.find?, h]
    · have hstep : scanBracesAux toks (n + 2) (braceDepth toks n) (fuel + 1) =
          scanBracesAux toks ((n + 1) + 2) (braceDepth toks (n + 1)) fuel := by
        have hpos : 0 < braceDepth toks n := Nat.pos_of_ne_zero h
        simp [scanBracesAux, hpos, braceDepth]
      rw [hstep, ih (n + 1) (by omega), List.range'_succ]
      simp [List.find?, h]

theorem isDestructuringAssignment_eq_spec (toks : List Tok) :
    isDestructuringAssignment toks = specDestructuring toks := by
  by_cases hc : la toks 1 = Tok.lcurly
  · have h0 : scanBraces toks 2 1 =
        (match (List.range' 0 19).find? (fun k => braceDepth toks k = 0) with
         | some k => (0, k + 2)
         | none => (braceDepth toks 18, 20)) := by
      have := scanBracesAux_spec toks 18 0 (by omega)
      simpa [scanBraces, braceDepth] using this
    unfold isDestructuringAssignment specDestructuring
    rw [← List.range_eq_range'] at h0
    rcases hfind : (List.range 19).find? (fun k => braceDepth toks k = 0) with _ | k
    · have h18 : ¬ (braceDepth toks 18 = 0) := by
        have hmem : 18 ∈ List.range 19 := by decide
        have := List.find?_eq_none.mp hfind 18 hmem
        simpa using this
      rw [hfind] at h0
      simp [hc, h0, h18]
    · rw [hfind] at h0
      simp [hc, h0]
  · unfold isDestructuringAssignment specDestructuring
    simp [hc]

/--
C1: the AST transformer is claimed to fold an `and`/`or` chain applying
the operators in source encounter order, so that evaluation agrees with
flat left-to-right evaluation; the code instead applies all `and`
operators first and all `or` operators afterwards (the chevrotain CST
groups the operator tokens by type).  On the source chain
`true or true and false` the generated tree is
`((true and true) or false)`, which evaluates to true, while flat
left-to-right encounter-order evaluation yields false.
-/
theorem c1_logical_chain_divergence :
    transformLogicalExpression (Expr.bool true) [LogOp.or, LogOp.and]
        [Expr.bool true, Expr.bool false] =
      Expr.logical LogOp.or
        (Expr.logical LogOp.and (Expr.bool true) (Expr.bool true)) (Expr.bool false)
    ∧ evalLogical
        (transformLogicalExpression (Expr.bool true) [LogOp.or, LogOp.and]
          [Expr.bool true, Expr.bool false]) = true
    ∧ flatEval true [(LogOp.or, true), (LogOp.and, false)] = false
    ∧ generateExpr ⟨[], [], []⟩
        (transformLogicalExpression (Expr.bool true) [LogOp.or, LogOp.and]
          [Expr.bool true, Expr.bool false]) = Except.ok "true && true || false" :=
  ⟨rfl, rfl, rfl, rfl⟩

/--
C9: a statement opening with `\x7b` is classified as a destructuring
assignment exactly when the budget-bounded brace-depth scan returns to
depth zero and the next token is `=` (the loop agrees with the
declarative depth-scan restatement on every token stream); in
particular `\x7b a, b \x7d = f()` is classified as destructuring while
`x = \x7b a: 1 \x7d` is classified as an ordinary assignment.
-/
theorem c9_destructuring_gate :
    (∀ toks, isDestructuringAssignment toks = specDestructuring toks)
    ∧ classifyStatement exDestrToks = StmtKind.destructuring
    ∧ classifyStatement exAssignToks = StmtKind.assignment :=
  ⟨isDestructuringAssignment_eq_spec, rfl, rfl⟩

theorem alistGet_alistSet {α : Type} (m : List (String × α)) (k : String) (v : α) (p : String) :
    alistGet (alistSet m k v) p = if k = p then some v else alistGet m p := by
  induction m with
  | nil => simp [alistSet, alistGet]
  | cons kv rest ih =>
    obtain ⟨k', v'⟩ := kv
    by_cases hk : k' = k
    · subst hk
      simp only [alistSet, if_pos rfl, alistGet]
      split_ifs <;> rfl
    · simp only [alistSet, if_neg hk, alistGet, ih]
      split_ifs with h1 h2 <;> simp_all

theorem except_bind_ok {ε α β : Type} (a : α) (f : α → Except ε β) :
    (Except.ok a >>= f) = f a := rfl

theorem except_bind_error {ε α β : Type} (e : ε) (f : α → Except ε β) :
    ((Except.error e : Except ε α) >>= f) = Except.error e := rfl

theorem except_map_ok {ε α β : Type} (a : α) (f : α → β) :
    (Except.ok a : Except ε α).map f = Except.ok (f a) := rfl

theorem except_map_error {ε α β : Type} (e : ε) (f : α → β) :
    (Except.error e : Except ε α).map f = Except.error e := rfl

theorem propsMapAux_lookup (env : Env) :
    (props : PropList) → ∀ (m : List (String × Except String String)) (p : String),
      alistGet (generatePropsMapAux env m props) p =
        (match findProp props p with
         | some (some e) => some (generateExpr env e)
         | some none => some (Except.ok p)
         | none => alistGet m p)
  | PropList.nil => by intro m p; simp [generatePropsMapAux, findProp]
  | PropList.consVal k v rest => by
    intro m p
    have ih := propsMapAux_lookup env rest
    simp only [generatePropsMapAux, findProp, ih]
    rcases hr : findProp rest p with _ | r
    · by_cases hk : k = p
      · subst hk
        simp [alistGet_alistSet]
      · simp [alistGet_alistSet, hk]
    · rcases r with _ | e <;> rfl
  | PropList.consShort k rest => by
    intro m p
    have ih := propsMapAux_lookup env rest
    simp only [generatePropsMapAux, findProp, ih]
    rcases hr : findProp rest p with _ | r
    · by_cases hk : k = p
      · subst hk
        simp [alistGet_alistSet]
      · simp [alistGet_alistSet, hk]
    · rcases r with _ | e <;> rfl

theorem extractParams_eq_spec (env : Env) (callee : String) (props : PropList) :
    ∀ params : List String,
      extractParams callee (generatePropsMapAux env [] props) params =
        specPositionalArgs env callee props params := by
  intro params
  induction params with
  | nil => rfl
  | cons q qs ih =>
    simp only [extractParams, specPositionalArgs, propsMapAux_lookup]
    rcases hr : findProp props q with _ | r
    · simp [alistGet]
    · rcases r with _ | e
      · simp only []
        rw [ih]
        rfl
      · simp only []
        rw [ih]

theorem specPositionalArgs_congr (env : Env) (F : String) (props props' : PropList) :
    ∀ params : List String, (∀ q ∈ params, findProp props' q = findProp props q) →
      specPositionalArgs env F props' params = specPositionalArgs env F props params := by
  intro params
  induction params with
  | nil => intro _; rfl
  | cons q qs ih =>
    intro h
    have hq : findProp props' q = findProp props q := h q (by simp)
    have hqs := ih (fun r hr => h r (by simp [hr]))
    simp only [specPositionalArgs, hq, hqs]

/--
C5: a call to a declared flow F whose argument list is exactly one
object literal generates an awaited call whose arguments are supplied
positionally in F's declared parameter order, each obtained by looking
the parameter's name up among the literal's properties (the value
expression, or the identifier itself for a shorthand property); the
result depends on the properties only through those lookups, so it is
independent of the order the properties are written in at the call
site.
-/
theorem c5_flow_positional_call (env : Env) (F : String) (props : PropList)
    (params : List String)
    (hp : alistGet env.importedPrompts F = none)
    (hf : setContains env.definedFlows F = true)
    (hparams : alistGet env.flowParameters F = some params) :
    generateExpr env (Expr.funcCall F (ExprList.cons (Expr.objectLit props) ExprList.nil)) =
        (specPositionalArgs env F props params).map
          (fun ss => "await " ++ F ++ "(" ++ String.intercalate ", " ss ++ ")")
    ∧ ∀ props' : PropList, (∀ q ∈ params, findProp props' q = findProp props q) →
        generateExpr env (Expr.funcCall F (ExprList.cons (Expr.objectLit props') ExprList.nil)) =
        generateExpr env (Expr.funcCall F (ExprList.cons (Expr.objectLit props) ExprList.nil)) := by
  have hmain : ∀ ps : PropList,
      generateExpr env (Expr.funcCall F (ExprList.cons (Expr.objectLit ps) ExprList.nil)) =
        (specPositionalArgs env F ps params).map
          (fun ss => "await " ++ F ++ "(" ++ String.intercalate ", " ss ++ ")") := by
    intro ps
    simp [generateExpr, exprListIsNil, hp, hf, generateFlowObjectStyle, hparams,
      extractParams_eq_spec]
  refine ⟨hmain props, fun props' hfp => ?_⟩
  rw [hmain props', hmain props, specPositionalArgs_congr env F props props' params hfp]

/--
C5 witness: for flow F(x, y) the call F(\x7b y: "q", x: 5 \x7d)
generates `await F(5, "q")` — argument order follows F's declaration,
not the call site's property order.
-/
theorem c5_flow_positional_call_witness :
    (alistGet envFP.importedPrompts "F" = none
      ∧ setContains envFP.definedFlows "F" = true
      ∧ alistGet envFP.flowParameters "F" = some ["x", "y"])
    ∧ generateExpr envFP
        (Expr.funcCall "F"
          (ExprList.cons
            (Expr.objectLit
              (PropList.consVal "y" (Expr.str "q")
                (PropList.consVal "x" (Expr.num 5) PropList.nil)))
            ExprList.nil)) =
        (specPositionalArgs envFP "F"
            (PropList.consVal "y" (Expr.str "q")
              (PropList.consVal "x" (Expr.num 5) PropList.nil)) ["x", "y"]).map
          (fun ss => "await " ++ "F" ++ "(" ++ String.intercalate ", " ss ++ ")")
    ∧ generateExpr envFP
        (Expr.funcCall "F"
          (ExprList.cons
            (Expr.objectLit
              (PropList.consVal "y" (Expr.str "q")
                (PropList.consVal "x" (Expr.num 5) PropList.nil)))
            ExprList.nil)) = Except.ok "await F(5, \"q\")" :=
  ⟨⟨rfl, rfl, rfl⟩,
   (c5_flow_positional_call envFP "F"
      (PropList.consVal "y" (Expr.str "q") (PropList.consVal "x" (Expr.num 5) PropList.nil))
      ["x", "y"] rfl rfl rfl).1,
   rfl⟩

theorem specPositionalArgs_missing (env : Env) (F : String) (props : PropList)
    (q : String) (post : List String) (hmiss : findProp props q = none) :
    ∀ (pre : List String) (ss : List String),
      specPositionalArgs env F props pre = Except.ok ss →
      specPositionalArgs env F props (pre ++ q :: post) =
        Except.error
          ("Missing required parameter \x27" ++ q ++ "\x27 in call to flow \x27" ++ F ++ "\x27") := by
  intro pre
  induction pre with
  | nil => intro ss _; simp [specPositionalArgs, hmiss]
  | cons r pre' ih =>
    intro ss h
    rw [List.cons_append]
    rcases hfp : findProp props r with _ | rv
    · simp [specPositionalArgs, hfp] at h
    · rcases rv with _ | e
      · simp only [specPositionalArgs, hfp, generateExpr, except_bind_ok] at h ⊢
        rcases hrest : specPositionalArgs env F props pre' with er | rest
        · rw [hrest] at h
          simp [except_bind_error] at h
        · rw [ih rest hrest, except_bind_error]
      · simp only [specPositionalArgs, hfp] at h ⊢
        rcases hge : generateExpr env e with er | s
        · rw [hge] at h
          simp [except_bind_error] at h
        · rcases hrest : specPositionalArgs env F props pre' with er | rest
          · rw [hge, hrest] at h
            simp [except_bind_ok, except_bind_error] at h
          · rw [except_bind_ok, ih rest hrest, except_bind_error]

/--
C6: a call to a declared flow with exactly one object-literal argument
whose properties omit a declared parameter (here q, the first omitted
one in declared order, the parameters before it extracting
successfully) makes generation fail with an error naming the missing
parameter and the called flow; compiling the concrete program
`flow G() \x7b F(\x7b x: 5 \x7d) \x7d  flow F(x: number, y: string) \x7b\x7d`
aborts with the error naming y and F, producing no output text.
-/
theorem c6_missing_param_error (env : Env) (F : String) (props : PropList)
    (pre post : List String) (q : String) (ss : List String)
    (hp : alistGet env.importedPrompts F = none)
    (hf : setContains env.definedFlows F = true)
    (hparams : alistGet env.flowParameters F = some (pre ++ q :: post))
    (hmiss : findProp props q = none)
    (hpre : specPositionalArgs env F props pre = Except.ok ss) :
    generateExpr env (Expr.funcCall F (ExprList.cons (Expr.objectLit props) ExprList.nil)) =
        Except.error
          ("Missing required parameter \x27" ++ q ++ "\x27 in call to flow \x27" ++ F ++ "\x27")
    ∧ (compileSource "" initGenState srcMissing).1 =
        Except.error "Missing required parameter \x27y\x27 in call to flow \x27F\x27" := by
  constructor
  · have h1 := (c5_flow_positional_call env F props (pre ++ q :: post) hp hf hparams).1
    rw [h1, specPositionalArgs_missing env F props q post hmiss pre ss hpre]
    rfl
  · rfl

/--
C6 witness: flow F(x, y) called as F(\x7b x: 5 \x7d) fails with the
error naming y and F (pre = [x] extracts successfully, y has no
matching property).
-/
theorem c6_missing_param_error_witness :
    (alistGet envFP.importedPrompts "F" = none
      ∧ setContains envFP.definedFlows "F" = true
      ∧ alistGet envFP.flowParameters "F" = some (["x"] ++ "y" :: [])
      ∧ findProp (PropList.consVal "x" (Expr.num 5) PropList.nil) "y" = none
      ∧ specPositionalArgs envFP "F" (PropList.consVal "x" (Expr.num 5) PropList.nil) ["x"] =
          Except.ok ["5"])
    ∧ generateExpr envFP
        (Expr.funcCall "F"
          (ExprList.cons (Expr.objectLit (PropList.consVal "x" (Expr.num 5) PropList.nil))
            ExprList.nil)) =
        Except.error "Missing required parameter \x27y\x27 in call to flow \x27F\x27"
    ∧ (compileSource "" initGenState srcMissing).1 =
        Except.error "Missing required parameter \x27y\x27 in call to flow \x27F\x27" :=
  ⟨⟨rfl, rfl, rfl, rfl, rfl⟩,
   (c6_missing_param_error envFP "F" (PropList.consVal "x" (Expr.num 5) PropList.nil)
      ["x"] [] "y" ["5"] rfl rfl rfl rfl rfl).1,
   (c6_missing_param_error envFP "F" (PropList.consVal "x" (Expr.num 5) PropList.nil)
      ["x"] [] "y" ["5"] rfl rfl rfl rfl rfl).2⟩

/--
C8: during each flow's generation the declared-names set is reset (the
generated block is independent of the previous declaredVariables state)
and seeded with the flow's parameters; the first assignment to an
undeclared name emits `let` and records the name, an assignment to a
declared name emits a plain rebind and leaves the set unchanged, and a
destructuring assignment always emits `const` for all its names —
shadowing already-declared ones — and records them afterwards.  The
closed conjuncts show the seeding on flow H(x) \x7b x = 1  y = 2 \x7d
(parameter x rebinds, fresh y gets let) and the shadowing on flow
K(a) \x7b \x7b a, b \x7d = f() \x7d.
-/
theorem c8_scope_tracking :
    (∀ (s : GenState) (f : FlowDefinition) (d₀ : List String),
      (generateFlowDefinition { s with declaredVariables := d₀ } f).1 =
        (generateFlowDefinition s f).1)
    ∧ (∀ (env : Env) (d : List String) (x : String) (e : Expr) (r : String),
        rhsCode env e = Except.ok r → x ∉ d →
        generateStmt env d (Stmt.assign x e) =
          (Except.ok ("let " ++ x ++ " = " ++ r), d ++ [x]))
    ∧ (∀ (env : Env) (d : List String) (x : String) (e : Expr) (r : String),
        rhsCode env e = Except.ok r → x ∈ d →
        generateStmt env d (Stmt.assign x e) = (Except.ok (x ++ " = " ++ r), d))
    ∧ (∀ (env : Env) (d : List String) (xs : List String) (e : Expr) (r : String),
        rhsCode env e = Except.ok r →
        generateStmt env d (Stmt.destructuring xs e) =
          (Except.ok ("const \x7b " ++ String.intercalate ", " xs ++ " \x7d = " ++ r),
           xs.foldl setAdd d))
    ∧ (generateFlowDefinition initGenState flowParamAssign).1 =
        Except.ok
          ("// Flow: H\nasync function H(x) \x7b\n  try \x7b\n    x = 1;\n    let y = 2;" ++
           "\n  \x7d catch (error) \x7b\n    console.error(`Error in flow H: $\x7berror.message\x7d`);" ++
           "\n    throw error;\n  \x7d\n\x7d")
    ∧ (generateFlowDefinition initGenState flowShadow).1 =
        Except.ok
          ("// Flow: K\nasync function K(a) \x7b\n  try \x7b\n    const \x7b a, b \x7d = f();" ++
           "\n  \x7d catch (error) \x7b\n    console.error(`Error in flow K: $\x7berror.message\x7d`);" ++
           "\n    throw error;\n  \x7d\n\x7d") := by
  refine ⟨?_, ?_, ?_, ?_, rfl, rfl⟩
  · intro s f d₀
    rfl
  · intro env d x e r h hx
    simp [generateStmt, h, hx, setAdd]
  · intro env d x e r h hx
    simp [generateStmt, h, hx]
  · intro env d xs e r h
    simp [generateStmt, h]

/--
C8 witness: with an empty declared set, `n = 1` first emits
`let n = 1` recording n, a second assignment emits the plain rebind
`n = 2`, and a destructuring of n and m emits const for both although n
is already declared.
-/
theorem c8_scope_tracking_witness :
    (rhsCode envFP (Expr.num 1) = Except.ok "1" ∧ "n" ∉ ([] : List String))
    ∧ generateStmt envFP [] (Stmt.assign "n" (Expr.num 1)) =
        (Except.ok ("let " ++ "n" ++ " = " ++ "1"), [] ++ ["n"])
    ∧ generateStmt envFP ["n"] (Stmt.assign "n" (Expr.num 2)) =
        (Except.ok ("n" ++ " = " ++ "2"), ["n"])
    ∧ generateStmt envFP ["n"] (Stmt.destructuring ["n", "m"] (Expr.num 3)) =
        (Except.ok ("const \x7b " ++ String.intercalate ", " ["n", "m"] ++ " \x7d = " ++ "3"),
         ["n", "m"].foldl setAdd ["n"]) :=
  ⟨⟨rfl, by decide⟩,
   (c8_scope_tracking.2.1 envFP [] "n" (Expr.num 1) "1" rfl (by decide)),
   (c8_scope_tracking.2.2.1 envFP ["n"] "n" (Expr.num 2) "2" rfl (by decide)),
   (c8_scope_tracking.2.2.2.1 envFP ["n"] ["n", "m"] (Expr.num 3) "3" rfl)⟩

theorem collectFold_fields : ∀ (ds : List Decl) (s : GenState),
    (ds.foldl collectFlowStep s).importedPrompts = s.importedPrompts
    ∧ (ds.foldl collectFlowStep s).importedSymbols = s.importedSymbols
    ∧ (ds.foldl collectFlowStep s).hasMainFlow = s.hasMainFlow
    ∧ (ds.foldl collectFlowStep s).declaredVariables = s.declaredVariables := by
  intro ds
  induction ds with
  | nil => intro s; exact ⟨rfl, rfl, rfl, rfl⟩
  | cons d rest ih =>
    intro s
    cases d <;> simp [collectFlowStep, ih]

theorem generateProgramDecls_eq_declBlocks : ∀ (ds : List Decl) (s : GenState),
    (generateProgramDecls s ds).1 = ((declBlocks s ds).1).map blocksConcat
    ∧ (generateProgramDecls s ds).2 = (declBlocks s ds).2 := by
  intro ds
  induction ds with
  | nil => intro s; exact ⟨rfl, rfl⟩
  | cons d rest ih =>
    intro s
    rcases hd : generateDecl s d with ⟨r, s'⟩
    cases r with
    | error er => simp [generateProgramDecls, declBlocks, hd, Except.map]
    | ok b =>
      have ih' := ih s'
      rcases hrest : declBlocks s' rest with ⟨rbs, s''⟩
      rcases hgen : generateProgramDecls s' rest with ⟨rg, s'''⟩
      rw [hrest, hgen] at ih'
      cases rbs with
      | error er =>
        simp only [Except.map] at ih'
        simp [generateProgramDecls, declBlocks, hd, hrest, hgen, ih'.1, ih'.2, Except.map]
      | ok bs =>
        simp only [Except.map] at ih'
        simp [generateProgramDecls, declBlocks, hd, hrest, hgen, ih'.1, ih'.2, Except.map,
          blocksConcat]

theorem generateDecl_hasMain (s : GenState) (d : Decl) :
    (generateDecl s d).2.hasMainFlow =
      (s.hasMainFlow ||
        (match d with | Decl.flowDefinition f => f.name == "Main" | _ => false)) := by
  cases d with
  | importPrompt p => simp [generateDecl, generatePromptImport]
  | importSymbol si => simp [generateDecl, generateSymbolImport]
  | flowDefinition f =>
    simp only [generateDecl, generateFlowDefinition]
    split <;> rfl

theorem hasMainFlow_generateProgramDecls : ∀ (ds : List Decl) (s : GenState) (c : String)
    (s' : GenState), generateProgramDecls s ds = (Except.ok c, s') →
    s'.hasMainFlow = (s.hasMainFlow || containsMainFlow ds) := by
  intro ds
  induction ds with
  | nil =>
    intro s c s' h
    simp only [generateProgramDecls, Prod.mk.injEq] at h
    rw [← h.2]
    simp [containsMainFlow]
  | cons d rest ih =>
    intro s c s' h
    rcases hd : generateDecl s d with ⟨r, s₁⟩
    cases r with
    | error er => simp [generateProgramDecls, hd] at h
    | ok b =>
      rcases hrest : generateProgramDecls s₁ rest with ⟨rr, s₂⟩
      cases rr with
      | error er => simp [generateProgramDecls, hd, hrest] at h
      | ok c₂ =>
        simp only [generateProgramDecls, hd, hrest, Prod.mk.injEq] at h
        have hm := generateDecl_hasMain s d
        rw [hd] at hm
        have := ih s₁ c₂ s₂ hrest
        rw [← h.2, this, hm]
        cases d <;> simp [containsMainFlow, Bool.or_assoc]

theorem any_filter_append (f p : Decl → Bool) : ∀ ds : List Decl,
    ((ds.filter p ++ ds.filter (fun d => !(p d))).any f) = ds.any f := by
  intro ds
  induction ds with
  | nil => rfl
  | cons d rest ih =>
    by_cases hp : p d = true
    · simp only [List.filter_cons, hp, if_pos, Bool.not_true, Bool.false_eq_true, if_false,
        List.cons_append, List.any_cons, ih]
    · have hp' : p d = false := by simpa using hp
      simp only [List.filter_cons, hp', Bool.false_eq_true, if_false, Bool.not_false, if_pos,
        List.any_append, List.any_cons]
      have := ih
      simp only [List.any_append] at this
      rw [← Bool.or_assoc, Bool.or_comm ((rest.filter p).any f) (f d), Bool.or_assoc, this]

theorem containsMainFlow_transform (src : List Decl) :
    containsMainFlow (transform src).body = containsMainFlow src := by
  have : (transform src).body = src.filter isImportDecl ++ src.filter (fun d => !(isImportDecl d)) :=
    rfl
  rw [containsMainFlow, this, any_filter_append]
  rfl

theorem except_map_eq_ok {ε α β : Type} {x : Except ε α} {f : α → β} {out : β}
    (h : x.map f = Except.ok out) : ∃ v, x = Except.ok v ∧ out = f v := by
  cases x with
  | error e => simp [Except.map] at h
  | ok v =>
    simp [Except.map] at h
    exact ⟨v, rfl, h.symm⟩

/-
An identifier token never contains a space, so a plain (non-awaited)
call `callee(...)` can never begin with the six characters `await `.
-/
theorem no_space_not_await : ∀ (l : List Char), (∀ c ∈ l, c ≠ ' ') → ∀ (r t : List Char),
    l ++ '(' :: r ≠ 'a' :: 'w' :: 'a' :: 'i' :: 't' :: ' ' :: t := by
  intro l hl r t h
  rcases l with _ | ⟨c0, l⟩
  · injection h with h1 _
    exact absurd h1 (by decide)
  rcases l with _ | ⟨c1, l⟩
  · injection h with h1 h2
    injection h2 with h3 _
    exact absurd h3 (by decide)
  rcases l with _ | ⟨c2, l⟩
  · injection h with h1 h2
    injection h2 with h3 h4
    injection h4 with h5 _
    exact absurd h5 (by decide)
  rcases l with _ | ⟨c3, l⟩
  · injection h with h1 h2
    injection h2 with h3 h4
    injection h4 with h5 h6
    injection h6 with h7 _
    exact absurd h7 (by decide)
  rcases l with _ | ⟨c4, l⟩
  · injection h with h1 h2
    injection h2 with h3 h4
    injection h4 with h5 h6
    injection h6 with h7 h8
    injection h8 with h9 _
    exact absurd h9 (by decide)
  rcases l with _ | ⟨c5, l⟩
  · injection h with h1 h2
    injection h2 with h3 h4
    injection h4 with h5 h6
    injection h6 with h7 h8
    injection h8 with h9 h10
    injection h10 with h11 _
    exact absurd h11 (by decide)
  · injection h with h1 h2
    injection h2 with h3 h4
    injection h4 with h5 h6
    injection h6 with h7 h8
    injection h8 with h9 h10
    injection h10 with h11 _
    exact hl c5 (by simp) h11

theorem plain_call_not_await (callee X : String) (hid : ∀ c ∈ callee.data, c ≠ ' ') :
    ¬ isAwaitedCode (callee ++ "(" ++ X ++ ")") := by
  rintro ⟨t, ht⟩
  have hd := congrArg String.data ht
  simp only [String.data_append, List.append_assoc] at hd
  have hL : ("(" : String).data ++ (X.data ++ (")" : String).data) =
      '(' :: (X.data ++ [')']) := rfl
  rw [hL] at hd
  have hR : ("await " : String).data ++ t.data = 'a' :: 'w' :: 'a' :: 'i' :: 't' :: ' ' :: t.data := rfl
  rw [hR] at hd
  exact no_space_not_await callee.data hid _ _ hd

theorem builtins_call_not_await (X : String) : ¬ isAwaitedCode ("_builtins." ++ X) := by
  rintro ⟨t, ht⟩
  have hd := congrArg (fun s => s.data.headD ' ') ht
  have : ('_' : Char) = 'a' := hd
  exact absurd this (by decide)

theorem await_code_shape (c x : String) : isAwaitedCode ("await " ++ c ++ x) :=
  ⟨c ++ x, String.append_assoc _ _ _⟩

theorem await_code_shape2 (c x y z : String) :
    isAwaitedCode ("await " ++ c ++ x ++ y ++ z) := by
  refine ⟨c ++ (x ++ (y ++ z)), ?_⟩
  simp [String.append_assoc]

/-
generateAsyncCall repeats generateFunctionCall's prompt and flow
branches, so whenever isAsyncCall holds the two generate the same text.
-/
theorem generateAsyncCall_eq (env : Env) (callee : String) (args : ExprList)
    (h : ((alistGet env.importedPrompts callee).isSome
          || setContains env.definedFlows callee) = true) :
    generateAsyncCall env callee args = generateExpr env (Expr.funcCall callee args) := by
  cases hp : (alistGet env.importedPrompts callee).isSome with
  | true =>
    cases args with
    | nil => simp [generateAsyncCall, generateExpr, hp, exprListIsNil]
    | cons a rest =>
      simp [generateAsyncCall, generateExpr, hp, exprListIsNil, generateFirstArg]
  | false =>
    have hf : setContains env.definedFlows callee = true := by simpa [hp] using h
    cases args with
    | nil => simp [generateAsyncCall, generateExpr, hp, hf, exprListIsNil]
    | cons a rest =>
      cases a <;> cases rest <;>
        simp [generateAsyncCall, generateExpr, hp, hf, exprListIsNil,
          generateFlowObjectStyle, generateFirstArg]

theorem rhsCode_funcCall (env : Env) (callee : String) (args : ExprList) :
    rhsCode env (Expr.funcCall callee args) = generateExpr env (Expr.funcCall callee args) := by
  cases hb : ((alistGet env.importedPrompts callee).isSome
      || setContains env.definedFlows callee) with
  | true => simp [rhsCode, hb, generateAsyncCall_eq env callee args hb]
  | false => simp [rhsCode, hb]

/--
C7: a generated call's text begins with `await ` exactly when its
callee is a declared prompt import or a declared flow (builtins and
unknown callees are never awaited), and the call's text is embedded
unchanged at every syntactic position — as a return value, as the
right-hand side of a simple or destructuring assignment, and as a bare
expression statement — so the await decision depends only on callee
identity; the closed conjunct shows
`result = RankIdeas(\x7b ideas \x7d)` inside a for body still produces an
awaited call.
-/
theorem c7_await_iff :
    (∀ (env : Env) (callee : String) (args : ExprList) (out : String),
      generateExpr env (Expr.funcCall callee args) = Except.ok out →
      (∀ c ∈ callee.data, c ≠ ' ') →
      (isAwaitedCode out ↔
        ((alistGet env.importedPrompts callee).isSome = true
          ∨ setContains env.definedFlows callee = true)))
    ∧ (∀ (env : Env) (d : List String) (callee : String) (args : ExprList),
        (generateStmt env d (Stmt.ret (Expr.funcCall callee args))).1 =
          (generateExpr env (Expr.funcCall callee args)).map (fun s => "return " ++ s))
    ∧ (∀ (env : Env) (d : List String) (callee : String) (args : ExprList),
        (generateStmt env d (Stmt.exprStmt (Expr.funcCall callee args))).1 =
          generateExpr env (Expr.funcCall callee args))
    ∧ (∀ (env : Env) (d : List String) (x : String) (callee : String) (args : ExprList)
        (r : String), generateExpr env (Expr.funcCall callee args) = Except.ok r →
        (generateStmt env d (Stmt.assign x (Expr.funcCall callee args))).1 =
          Except.ok (if x ∈ d then x ++ " = " ++ r else "let " ++ x ++ " = " ++ r))
    ∧ (∀ (env : Env) (d : List String) (xs : List String) (callee : String) (args : ExprList)
        (r : String), generateExpr env (Expr.funcCall callee args) = Except.ok r →
        (generateStmt env d (Stmt.destructuring xs (Expr.funcCall callee args))).1 =
          Except.ok ("const \x7b " ++ String.intercalate ", " xs ++ " \x7d = " ++ r))
    ∧ (generateStmt envRank []
        (Stmt.forS "idea" (Expr.ident "ideas")
          (StmtList.cons
            (Stmt.assign "result"
              (Expr.funcCall "RankIdeas"
                (ExprList.cons (Expr.objectLit (PropList.consShort "ideas" PropList.nil))
                  ExprList.nil)))
            StmtList.nil))).1 =
        Except.ok
          "for (const idea of ideas) \x7b\n  let result = await RankIdeas(\x7b ideas \x7d);\n\x7d" := by
  refine ⟨?_, ?_, ?_, ?_, ?_, rfl⟩
  · intro env callee args out hout hid
    cases hp : (alistGet env.importedPrompts callee).isSome with
    | true =>
      simp only [generateExpr, hp, if_true] at hout
      constructor
      · intro _; exact Or.inl rfl
      · intro _
        by_cases hnil : exprListIsNil args = true
        · rw [if_pos hnil] at hout
          cases hout
          exact await_code_shape callee "(\x7b\x7d)"
        · rw [if_neg hnil] at hout
          obtain ⟨v, _, hv⟩ := except_map_eq_ok hout
          subst hv
          exact await_code_shape2 callee "(" v ")"
    | false =>
      cases hf : setContains env.definedFlows callee with
      | true =>
        simp only [generateExpr, hp, hf, Bool.false_eq_true, if_false, if_true] at hout
        constructor
        · intro _; exact Or.inr rfl
        · intro _
          by_cases hnil : exprListIsNil args = true
          · rw [if_pos hnil] at hout
            cases hout
            exact await_code_shape callee "()"
          · rw [if_neg hnil] at hout
            rcases hext : generateFlowObjectStyle env callee args with _ | rext
            · rw [hext] at hout
              obtain ⟨v, _, hv⟩ := except_map_eq_ok hout
              subst hv
              exact await_code_shape2 callee "(" (String.intercalate ", " v) ")"
            · rw [hext] at hout
              obtain ⟨v, _, hv⟩ := except_map_eq_ok hout
              subst hv
              exact await_code_shape2 callee "(" (String.intercalate ", " v) ")"
      | false =>
        simp only [generateExpr, hp, hf, Bool.false_eq_true, if_false] at hout
        have hnone : ¬ (isAwaitedCode out) := by
          by_cases hb : callee ∈ builtinFunctions
          · rw [if_pos hb] at hout
            obtain ⟨v, _, hv⟩ := except_map_eq_ok hout
            subst hv
            have hshape : "_builtins." ++ callee ++ "(" ++ String.intercalate ", " v ++ ")" =
                "_builtins." ++ (callee ++ "(" ++ String.intercalate ", " v ++ ")") := by
              simp [String.append_assoc]
            rw [hshape]
            exact builtins_call_not_await _
          · rw [if_neg hb] at hout
            obtain ⟨v, _, hv⟩ := except_map_eq_ok hout
            subst hv
            exact plain_call_not_await callee (String.intercalate ", " v) hid
        simp [hnone, hp, hf]
  · intro env d callee args
    simp [generateStmt, rhsCode_funcCall]
  · intro env d callee args
    simp [generateStmt, rhsCode_funcCall]
  · intro env d x callee args r h
    simp only [generateStmt, rhsCode_funcCall, h]
    split_ifs <;> rfl
  · intro env d xs callee args r h
    simp only [generateStmt, rhsCode_funcCall, h]

/--
C7 witness: with RankIdeas a declared prompt import and F a declared
flow, the generated texts `await RankIdeas(1)` and plain `g(1)` are
classified by the iff at their respective callees, and a return of a
flow call embeds the call's text after `return `.
-/
theorem c7_await_iff_witness :
    (generateExpr envRank (Expr.funcCall "RankIdeas" (ExprList.cons (Expr.num 1) ExprList.nil)) =
        Except.ok "await RankIdeas(1)"
      ∧ (∀ c ∈ ("RankIdeas" : String).data, c ≠ ' '))
    ∧ (isAwaitedCode "await RankIdeas(1)" ↔
        ((alistGet envRank.importedPrompts "RankIdeas").isSome = true
          ∨ setContains envRank.definedFlows "RankIdeas" = true))
    ∧ (generateExpr envRank (Expr.funcCall "g" (ExprList.cons (Expr.num 1) ExprList.nil)) =
        Except.ok "g(1)" ∧ (∀ c ∈ ("g" : String).data, c ≠ ' '))
    ∧ (isAwaitedCode "g(1)" ↔
        ((alistGet envRank.importedPrompts "g").isSome = true
          ∨ setContains envRank.definedFlows "g" = true))
    ∧ (generateStmt envRank [] (Stmt.ret (Expr.funcCall "RankIdeas"
          (ExprList.cons (Expr.num 1) ExprList.nil)))).1 =
        (generateExpr envRank (Expr.funcCall "RankIdeas"
          (ExprList.cons (Expr.num 1) ExprList.nil))).map (fun s => "return " ++ s) :=
  ⟨⟨rfl, by decide⟩,
   c7_await_iff.1 envRank "RankIdeas" (ExprList.cons (Expr.num 1) ExprList.nil)
     "await RankIdeas(1)" rfl (by decide),
   ⟨rfl, by decide⟩,
   c7_await_iff.1 envRank "g" (ExprList.cons (Expr.num 1) ExprList.nil) "g(1)" rfl (by decide),
   c7_await_iff.2.1 envRank [] "RankIdeas" (ExprList.cons (Expr.num 1) ExprList.nil)⟩

/--
C10: a call to a declared prompt import with at least one argument
generates only the first argument, passed through unchanged (whatever
its shape), and silently discards every further argument — the result
is the same as if the extra arguments were absent, with no diagnostic.
-/
theorem c10_prompt_first_arg_only (env : Env) (P : String) (pi : PromptImport)
    (h : alistGet env.importedPrompts P = some pi) (a : Expr) (rest : ExprList) :
    generateExpr env (Expr.funcCall P (ExprList.cons a rest)) =
        (generateExpr env a).map (fun s => "await " ++ P ++ "(" ++ s ++ ")")
    ∧ generateExpr env (Expr.funcCall P (ExprList.cons a rest)) =
        generateExpr env (Expr.funcCall P (ExprList.cons a ExprList.nil)) := by
  constructor
  · simp [generateExpr, generateFirstArg, exprListIsNil, h]
  · simp [generateExpr, generateFirstArg, exprListIsNil, h]

/--
C10 witness: with RankIdeas imported as a prompt, a call passing the
non-object literal 1 plus an extra argument 2 generates only `await
RankIdeas(1)`.
-/
theorem c10_prompt_first_arg_only_witness :
    alistGet envRank.importedPrompts "RankIdeas" = some promptRankIdeas
    ∧ (generateExpr envRank
          (Expr.funcCall "RankIdeas"
            (ExprList.cons (Expr.num 1) (ExprList.cons (Expr.num 2) ExprList.nil))) =
        (generateExpr envRank (Expr.num 1)).map
          (fun s => "await " ++ "RankIdeas" ++ "(" ++ s ++ ")")
      ∧ generateExpr envRank
          (Expr.funcCall "RankIdeas"
            (ExprList.cons (Expr.num 1) (ExprList.cons (Expr.num 2) ExprList.nil))) =
        generateExpr envRank
          (Expr.funcCall "RankIdeas" (ExprList.cons (Expr.num 1) ExprList.nil))) :=
  ⟨rfl, c10_prompt_first_arg_only envRank "RankIdeas" promptRankIdeas rfl (Expr.num 1)
    (ExprList.cons (Expr.num 2) ExprList.nil)⟩

theorem collectFold_definedFlows : ∀ (ds : List Decl) (s : GenState),
    (ds.foldl collectFlowStep s).definedFlows = (flowNamesOf ds).foldl setAdd s.definedFlows := by
  intro ds
  induction ds with
  | nil => intro s; rfl
  | cons d rest ih =>
    intro s
    cases d <;> simp [collectFlowStep, flowNamesOf, ih]

theorem collectFold_flowParameters : ∀ (ds : List Decl) (s : GenState),
    (ds.foldl collectFlowStep s).flowParameters =
      (flowDefsOf ds).foldl flowParamStep s.flowParameters := by
  intro ds
  induction ds with
  | nil => intro s; rfl
  | cons d rest ih =>
    intro s
    cases d <;> simp [collectFlowStep, flowDefsOf, flowParamStep, ih]

theorem mem_setAdd (s : List String) (x y : String) :
    y ∈ setAdd s x ↔ y ∈ s ∨ y = x := by
  by_cases hx : x ∈ s
  · simp only [setAdd, if_pos hx]
    constructor
    · exact Or.inl
    · rintro (h | rfl)
      · exact h
      · exact hx
  · simp [setAdd, hx]

theorem mem_foldl_setAdd : ∀ (names : List String) (s : List String) (y : String),
    y ∈ names.foldl setAdd s ↔ y ∈ s ∨ y ∈ names := by
  intro names
  induction names with
  | nil => intro s y; simp
  | cons n rest ih =>
    intro s y
    simp only [List.foldl_cons, ih, mem_setAdd, List.mem_cons]
    tauto

theorem foldl_flowParamStep_not_mem : ∀ (fs : List FlowDefinition)
    (m : List (String × List String)) (k : String),
    k ∉ fs.map FlowDefinition.name →
    alistGet (fs.foldl flowParamStep m) k = alistGet m k := by
  intro fs
  induction fs with
  | nil => intro m k _; rfl
  | cons f rest ih =>
    intro m k hk
    simp only [List.map_cons, List.mem_cons, not_or] at hk
    simp only [List.foldl_cons, ih _ _ hk.2, flowParamStep, alistGet_alistSet]
    rw [if_neg (fun h => hk.1 h.symm)]

theorem foldl_flowParamStep_lookup : ∀ (fs : List FlowDefinition)
    (m : List (String × List String)) (f : FlowDefinition),
    (fs.map FlowDefinition.name).Nodup → f ∈ fs →
    alistGet (fs.foldl flowParamStep m) f.name = some (f.parameters.map Prod.fst) := by
  intro fs
  induction fs with
  | nil => intro m f _ hf; cases hf
  | cons g rest ih =>
    intro m f hnd hf
    simp only [List.map_cons, List.nodup_cons] at hnd
    rcases List.mem_cons.mp hf with rfl | hf'
    · rw [List.foldl_cons, foldl_flowParamStep_not_mem rest _ _ hnd.1]
      simp [flowParamStep, alistGet_alistSet]
    · exact ih _ f hnd.2 hf'

theorem flowNamesOf_filter_flows (src : List Decl) :
    flowNamesOf (src.filter (fun d => !(isImportDecl d))) = flowNamesOf src := by
  induction src with
  | nil => rfl
  | cons d rest ih => cases d <;> simp [flowNamesOf, isImportDecl, List.filter_cons, ih] <;>
      simpa [flowNamesOf] using ih

theorem flowNamesOf_filter_imports (src : List Decl) :
    flowNamesOf (src.filter isImportDecl) = [] := by
  induction src with
  | nil => rfl
  | cons d rest ih => cases d <;> simp [flowNamesOf, isImportDecl, List.filter_cons, ih] <;>
      simpa [flowNamesOf] using ih

theorem flowDefsOf_filter_flows (src : List Decl) :
    flowDefsOf (src.filter (fun d => !(isImportDecl d))) = flowDefsOf src := by
  induction src with
  | nil => rfl
  | cons d rest ih => cases d <;> simp [flowDefsOf, isImportDecl, List.filter_cons, ih] <;>
      simpa [flowDefsOf] using ih

theorem flowDefsOf_filter_imports (src : List Decl) :
    flowDefsOf (src.filter isImportDecl) = [] := by
  induction src with
  | nil => rfl
  | cons d rest ih => cases d <;> simp [flowDefsOf, isImportDecl, List.filter_cons, ih] <;>
      simpa [flowDefsOf] using ih

theorem promptNamesOf_filter_imports (src : List Decl) :
    promptNamesOf (src.filter isImportDecl) = promptNamesOf src := by
  induction src with
  | nil => rfl
  | cons d rest ih => cases d <;> simp [promptNamesOf, isImportDecl, List.filter_cons, ih] <;>
      simpa [promptNamesOf] using ih

theorem flowNamesOf_eq_map (ds : List Decl) :
    flowNamesOf ds = (flowDefsOf ds).map FlowDefinition.name := by
  induction ds with
  | nil => rfl
  | cons d rest ih =>
    cases d <;> simp only [flowNamesOf, flowDefsOf, List.filterMap_cons] at ih ⊢ <;>
      simp [ih]

theorem flowNamesOf_append (a b : List Decl) :
    flowNamesOf (a ++ b) = flowNamesOf a ++ flowNamesOf b := by
  simp [flowNamesOf]

theorem flowDefsOf_append (a b : List Decl) :
    flowDefsOf (a ++ b) = flowDefsOf a ++ flowDefsOf b := by
  simp [flowDefsOf]

theorem foldl_promptRegStep_not_mem : ∀ (ds : List Decl) (m : List (String × PromptImport))
    (k : String), k ∉ promptNamesOf ds →
    alistGet (ds.foldl promptRegStep m) k = alistGet m k := by
  intro ds
  induction ds with
  | nil => intro m k _; rfl
  | cons d rest ih =>
    intro m k hk
    cases d with
    | importPrompt p =>
      simp only [promptNamesOf, List.filterMap_cons] at hk
      simp only [List.mem_cons, not_or] at hk
      rw [List.foldl_cons]
      have := ih (promptRegStep m (Decl.importPrompt p)) k (by
        simpa [promptNamesOf] using hk.2)
      rw [this]
      simp only [promptRegStep, alistGet_alistSet]
      rw [if_neg (fun h => hk.1 h.symm)]
    | importSymbol si =>
      simp only [promptNamesOf, List.filterMap_cons] at hk
      rw [List.foldl_cons]
      exact ih m k (by simpa [promptNamesOf] using hk)
    | flowDefinition f =>
      simp only [promptNamesOf, List.filterMap_cons] at hk
      rw [List.foldl_cons]
      exact ih m k (by simpa [promptNamesOf] using hk)

theorem mem_promptNamesOf (ds : List Decl) (p : PromptImport)
    (h : Decl.importPrompt p ∈ ds) : p.name ∈ promptNamesOf ds := by
  simp only [promptNamesOf, List.mem_filterMap]
  exact ⟨Decl.importPrompt p, h, rfl⟩

theorem foldl_promptRegStep_lookup : ∀ (ds : List Decl) (m : List (String × PromptImport))
    (p : PromptImport), (promptNamesOf ds).Nodup → Decl.importPrompt p ∈ ds →
    alistGet (ds.foldl promptRegStep m) p.name = some p := by
  intro ds
  induction ds with
  | nil => intro m p _ hp; cases hp
  | cons d rest ih =>
    intro m p hnd hp
    cases d with
    | importPrompt q =>
      simp only [promptNamesOf, List.filterMap_cons] at hnd
      rw [List.nodup_cons] at hnd
      rcases List.mem_cons.mp hp with heq | hp'
      · cases heq
        rw [List.foldl_cons, foldl_promptRegStep_not_mem rest _ _ (by
          simpa [promptNamesOf] using hnd.1)]
        simp [promptRegStep, alistGet_alistSet]
      · exact ih _ p (by simpa [promptNamesOf] using hnd.2) hp'
    | importSymbol si =>
      simp only [promptNamesOf, List.filterMap_cons] at hnd
      rcases List.mem_cons.mp hp with heq | hp'
      · cases heq
      · exact ih _ p (by simpa [promptNamesOf] using hnd) hp'
    | flowDefinition f =>
      simp only [promptNamesOf, List.filterMap_cons] at hnd
      rcases List.mem_cons.mp hp with heq | hp'
      · cases heq
      · exact ih _ p (by simpa [promptNamesOf] using hnd) hp'

theorem generateProgramDecls_imports : ∀ (ds : List Decl),
    (∀ d ∈ ds, isImportDecl d = true) → ∀ s : GenState, ∃ c s',
      generateProgramDecls s ds = (Except.ok c, s')
      ∧ s'.importedPrompts = ds.foldl promptRegStep s.importedPrompts
      ∧ s'.definedFlows = s.definedFlows
      ∧ s'.flowParameters = s.flowParameters
      ∧ s'.hasMainFlow = s.hasMainFlow := by
  intro ds
  induction ds with
  | nil => intro _ s; exact ⟨"", s, rfl, rfl, rfl, rfl, rfl⟩
  | cons d rest ih =>
    intro hall s
    have hd : isImportDecl d = true := hall d (by simp)
    cases d with
    | importPrompt p =>
      obtain ⟨c, s', hgen, h1, h2, h3, h4⟩ :=
        ih (fun x hx => hall x (by simp [hx])) (generatePromptImport s p).2
      refine ⟨(generatePromptImport s p).1 ++ "\n\n" ++ c, s', ?_, ?_, ?_, ?_, ?_⟩
      · simp only [generateProgramDecls, generateDecl]
        rw [hgen]
      · rw [h1]; rfl
      · rw [h2]; rfl
      · rw [h3]; rfl
      · rw [h4]; rfl
    | importSymbol si =>
      obtain ⟨c, s', hgen, h1, h2, h3, h4⟩ :=
        ih (fun x hx => hall x (by simp [hx])) (generateSymbolImport s si).2
      refine ⟨(generateSymbolImport s si).1 ++ "\n\n" ++ c, s', ?_, ?_, ?_, ?_, ?_⟩
      · simp only [generateProgramDecls, generateDecl]
        rw [hgen]
      · rw [h1]; rfl
      · rw [h2]; rfl
      · rw [h3]; rfl
      · rw [h4]; rfl
    | flowDefinition f => simp [isImportDecl] at hd

theorem generateFlowDefinition_block (s : GenState) (f : FlowDefinition)
    (hmem : f.name ∈ s.definedFlows) :
    (generateFlowDefinition s f).1 = flowBlockStr (envOf s) f
    ∧ (generateFlowDefinition s f).2.importedPrompts = s.importedPrompts
    ∧ (generateFlowDefinition s f).2.definedFlows = s.definedFlows
    ∧ (generateFlowDefinition s f).2.flowParameters = s.flowParameters := by
  have hset : setAdd s.definedFlows f.name = s.definedFlows := by simp [setAdd, hmem]
  have henv : (envOf
      { s with
        declaredVariables := f.parameters.map Prod.fst
        definedFlows := setAdd s.definedFlows f.name
        hasMainFlow := s.hasMainFlow || f.name == "Main" }) = envOf s := by
    simp [envOf, hset]
  simp only [generateFlowDefinition, flowBlockStr]
  rw [henv]
  rcases hb : generateFlowStmts (envOf s) (f.parameters.map Prod.fst) f.body with ⟨r, d'⟩
  cases r <;> simp [hset]

theorem generateProgramDecls_flows : ∀ (fls : List Decl) (s : GenState),
    (∀ d ∈ fls, isImportDecl d = false) →
    (∀ f, Decl.flowDefinition f ∈ fls → f.name ∈ s.definedFlows) →
    (generateProgramDecls s fls).1 =
      (match flowsBlocksPure (envOf s) fls with
       | Except.error er => Except.error er
       | Except.ok bs => Except.ok (blocksConcat bs)) := by
  intro fls
  induction fls with
  | nil => intro s _ _; rfl
  | cons d rest ih =>
    intro s hni hdef
    cases d with
    | importPrompt p =>
      have := hni _ (List.mem_cons_self _ _)
      simp [isImportDecl] at this
    | importSymbol si =>
      have := hni _ (List.mem_cons_self _ _)
      simp [isImportDecl] at this
    | flowDefinition f =>
      have hmem : f.name ∈ s.definedFlows := hdef f (List.mem_cons_self _ _)
      obtain ⟨hblk, hp, hdf, hfp⟩ := generateFlowDefinition_block s f hmem
      rcases hg : generateFlowDefinition s f with ⟨r, s'⟩
      rw [hg] at hblk hp hdf hfp
      have henv' : envOf s' = envOf s := by
        unfold envOf
        rw [hp, hdf, hfp]
      cases r with
      | error er =>
        simp only [generateProgramDecls, generateDecl, hg, flowsBlocksPure, ← hblk,
          except_bind_error]
      | ok b =>
        have hrest := ih s' (fun x hx => hni x (by simp [hx]))
          (fun g hg' => by rw [hdf]; exact hdef g (by simp [hg']))
        rw [henv'] at hrest
        rcases hr : generateProgramDecls s' rest with ⟨rr, s''⟩
        rw [hr] at hrest
        simp only [generateProgramDecls, generateDecl, hg, hr, flowsBlocksPure, ← hblk,
          except_bind_ok]
        rcases hfb : flowsBlocksPure (envOf s) rest with er2 | bs
        · rw [hfb] at hrest
          simp only [] at hrest
          simp [hrest, except_bind_error]
        · rw [hfb] at hrest
          simp only [] at hrest
          simp [hrest, except_bind_ok, blocksConcat]

theorem generateProgramDecls_append : ∀ (ds₁ ds₂ : List Decl) (s : GenState)
    (c₁ : String) (s₁ : GenState), generateProgramDecls s ds₁ = (Except.ok c₁, s₁) →
    (generateProgramDecls s (ds₁ ++ ds₂)).1 =
      (match (generateProgramDecls s₁ ds₂).1 with
       | Except.error er => Except.error er
       | Except.ok c₂ => Except.ok (c₁ ++ c₂)) := by
  intro ds₁
  induction ds₁ with
  | nil =>
    intro ds₂ s c₁ s₁ h
    simp only [generateProgramDecls, Prod.mk.injEq, Except.ok.injEq] at h
    rw [← h.1, ← h.2]
    simp only [List.nil_append]
    rcases hr : generateProgramDecls s ds₂ with ⟨r, s₂⟩
    cases r <;> simp
  | cons d rest ih =>
    intro ds₂ s c₁ s₁ h
    rcases hd : generateDecl s d with ⟨rd, sd⟩
    cases rd with
    | error er => simp [generateProgramDecls, hd] at h
    | ok b =>
      rcases hrest : generateProgramDecls sd rest with ⟨rr, sr⟩
      cases rr with
      | error er => simp [generateProgramDecls, hd, hrest] at h
      | ok cr =>
        simp only [generateProgramDecls, hd, hrest, Prod.mk.injEq, Except.ok.injEq] at h
        have ih' := ih ds₂ sd cr sr hrest
        rw [h.2] at ih'
        simp only [List.cons_append, generateProgramDecls, hd]
        rcases hall : generateProgramDecls sd (rest ++ ds₂) with ⟨ra, sa⟩
        rw [hall] at ih'
        simp only [] at ih'
        rcases hd2 : (generateProgramDecls s₁ ds₂).1 with er2 | c₂
        · rw [hd2] at ih'
          simp only [] at ih'
          simp [ih']
        · rw [hd2] at ih'
          simp only [] at ih'
          simp [ih', ← h.1, String.append_assoc]


theorem foldl_flowParamStep_agree : ∀ (fs : List FlowDefinition)
    (m₁ m₂ : List (String × List String)) (k : String), k ∈ fs.map FlowDefinition.name →
    alistGet (fs.foldl flowParamStep m₁) k = alistGet (fs.foldl flowParamStep m₂) k := by
  intro fs
  induction fs with
  | nil => intro m₁ m₂ k hk; cases hk
  | cons g rest ih =>
    intro m₁ m₂ k hk
    by_cases hr : k ∈ rest.map FlowDefinition.name
    · exact ih _ _ k hr
    · have hg : k = g.name := by
        rcases List.mem_cons.mp hk with h | h
        · exact h
        · exact absurd h hr
      subst hg
      rw [List.foldl_cons, List.foldl_cons, foldl_flowParamStep_not_mem rest _ _ hr,
        foldl_flowParamStep_not_mem rest _ _ hr]
      simp [flowParamStep, alistGet_alistSet]

mutual
theorem generateExpr_congr (env env' : Env) (h : EnvAgree env env') :
    (e : Expr) → generateExpr env' e = generateExpr env e
  | Expr.funcCall callee args => by
    cases hp : (alistGet env.importedPrompts callee).isSome with
    | true =>
      simp only [generateExpr, h.1, hp, if_true]
      rw [generateFirstArg_congr env env' h args]
    | false =>
      cases hf : setContains env.definedFlows callee with
      | true =>
        simp only [generateExpr, h.1, h.2.1, hp, hf, Bool.false_eq_true, if_false, if_true]
        rw [generateFlowObjectStyle_congr env env' h callee hf args,
          generateArgs_congr env env' h args]
      | false =>
        simp only [generateExpr, h.1, h.2.1, hp, hf, Bool.false_eq_true, if_false]
        rw [generateArgs_congr env env' h args]
  | Expr.methodCall obj m args => by
    simp only [generateExpr]
    rw [generateExpr_congr env env' h obj, generateArgs_congr env env' h args]
  | Expr.objectLit props => by
    cases props with
    | nil => rfl
    | consVal k v rest =>
      simp only [generateExpr]
      rw [generateProps_congr env env' h (PropList.consVal k v rest)]
    | consShort k rest =>
      simp only [generateExpr]
      rw [generateProps_congr env env' h (PropList.consShort k rest)]
  | Expr.arrayLit elems => by
    cases elems with
    | nil => rfl
    | cons a es =>
      simp only [generateExpr]
      rw [generateArgs_congr env env' h (ExprList.cons a es)]
  | Expr.member obj property => by
    simp only [generateExpr]
    rw [generateExpr_congr env env' h obj]
  | Expr.ident n => rfl
  | Expr.str v => rfl
  | Expr.num v => rfl
  | Expr.bool b => rfl
  | Expr.comparison op l r => by
    simp only [generateExpr]
    rw [generateExpr_congr env env' h l, generateExpr_congr env env' h r]
  | Expr.logical op l r => by
    simp only [generateExpr]
    rw [generateExpr_congr env env' h l, generateExpr_congr env env' h r]
  | Expr.unaryNot a => by
    simp only [generateExpr]
    rw [generateExpr_congr env env' h a]

theorem generateArgs_congr (env env' : Env) (h : EnvAgree env env') :
    (es : ExprList) → generateArgs env' es = generateArgs env es
  | ExprList.nil => rfl
  | ExprList.cons e es => by
    simp only [generateArgs]
    rw [generateExpr_congr env env' h e, generateArgs_congr env env' h es]

theorem generateFirstArg_congr (env env' : Env) (h : EnvAgree env env') :
    (es : ExprList) → generateFirstArg env' es = generateFirstArg env es
  | ExprList.nil => rfl
  | ExprList.cons a _ => generateExpr_congr env env' h a

theorem generateFlowObjectStyle_congr (env env' : Env) (h : EnvAgree env env')
    (callee : String) (hc : setContains env.definedFlows callee = true) :
    (es : ExprList) →
      generateFlowObjectStyle env' callee es = generateFlowObjectStyle env callee es
  | ExprList.nil => rfl
  | ExprList.cons a rest => by
    cases a <;> cases rest <;> try rfl
    case objectLit.nil props =>
      simp only [generateFlowObjectStyle]
      rw [generatePropsMapAux_congr env env' h [] props, h.2.2 callee hc]

theorem generatePropsMapAux_congr (env env' : Env) (h : EnvAgree env env')
    (m : List (String × Except String String)) :
    (props : PropList) → generatePropsMapAux env' m props = generatePropsMapAux env m props
  | PropList.nil => rfl
  | PropList.consVal k v rest => by
    simp only [generatePropsMapAux]
    rw [generateExpr_congr env env' h v,
      generatePropsMapAux_congr env env' h (alistSet m k (generateExpr env v)) rest]
  | PropList.consShort k rest => by
    simp only [generatePropsMapAux]
    rw [generatePropsMapAux_congr env env' h (alistSet m k (Except.ok k)) rest]

theorem generateProps_congr (env env' : Env) (h : EnvAgree env env') :
    (props : PropList) → generateProps env' props = generateProps env props
  | PropList.nil => rfl
  | PropList.consVal k v rest => by
    simp only [generateProps]
    rw [generateExpr_congr env env' h v, generateProps_congr env env' h rest]
  | PropList.consShort k rest => by
    simp only [generateProps]
    rw [generateProps_congr env env' h rest]
end


theorem rhsCode_congr (env env' : Env) (h : EnvAgree env env') (e : Expr) :
    rhsCode env' e = rhsCode env e := by
  cases e with
  | funcCall c args =>
    simp only [rhsCode, h.1, h.2.1]
    cases hb : ((alistGet env.importedPrompts c).isSome || setContains env.definedFlows c) with
    | true =>
      simp only [hb, if_true]
      rw [generateAsyncCall_eq env' c args (by rw [h.1, h.2.1]; exact hb),
        generateAsyncCall_eq env c args hb]
      exact generateExpr_congr env env' h _
    | false =>
      simp only [hb, Bool.false_eq_true, if_false]
      exact generateExpr_congr env env' h _
  | methodCall obj m args => exact generateExpr_congr env env' h _
  | objectLit props => exact generateExpr_congr env env' h _
  | arrayLit elems => exact generateExpr_congr env env' h _
  | member obj p => exact generateExpr_congr env env' h _
  | ident n => rfl
  | str v => rfl
  | num v => rfl
  | bool b => rfl
  | comparison op l r => exact generateExpr_congr env env' h _
  | logical op l r => exact generateExpr_congr env env' h _
  | unaryNot a => exact generateExpr_congr env env' h _

mutual
theorem generateStmt_congr (env env' : Env) (h : EnvAgree env env') :
    (declared : List String) → (st : Stmt) →
      generateStmt env' declared st = generateStmt env declared st
  | declared, Stmt.ret e => by
    simp only [generateStmt]
    rw [rhsCode_congr env env' h e]
  | declared, Stmt.ifS cond body => by
    simp only [generateStmt]
    rw [generateExpr_congr env env' h cond, generateStmtSeq_congr env env' h declared body]
  | declared, Stmt.forS v it body => by
    simp only [generateStmt]
    rw [generateExpr_congr env env' h it, generateStmtSeq_congr env env' h declared body]
  | declared, Stmt.loopS body => by
    simp only [generateStmt]
    rw [generateStmtSeq_congr env env' h declared body]
  | declared, Stmt.assign x e => by
    simp only [generateStmt]
    rw [rhsCode_congr env env' h e]
  | declared, Stmt.destructuring xs e => by
    simp only [generateStmt]
    rw [rhsCode_congr env env' h e]
  | declared, Stmt.exprStmt e => by
    simp only [generateStmt]
    rw [rhsCode_congr env env' h e]

theorem generateStmtSeq_congr (env env' : Env) (h : EnvAgree env env') :
    (declared : List String) → (sts : StmtList) →
      generateStmtSeq env' declared sts = generateStmtSeq env declared sts
  | _, StmtList.nil => rfl
  | declared, StmtList.cons st rest => by
    simp only [generateStmtSeq]
    rw [generateStmt_congr env env' h declared st]
    rcases hs : generateStmt env declared st with ⟨r, d'⟩
    cases r with
    | error er => rfl
    | ok sc =>
      dsimp only
      rw [generateStmtSeq_congr env env' h d' rest]
end

theorem generateFlowStmts_congr (env env' : Env) (h : EnvAgree env env') :
    (declared : List String) → (sts : StmtList) →
      generateFlowStmts env' declared sts = generateFlowStmts env declared sts
  | _, StmtList.nil => rfl
  | declared, StmtList.cons st rest => by
    simp only [generateFlowStmts]
    rw [generateStmt_congr env env' h declared st]
    rcases hs : generateStmt env declared st with ⟨r, d'⟩
    cases r with
    | error er => rfl
    | ok sc =>
      dsimp only
      rw [generateFlowStmts_congr env env' h d' rest]


theorem generateProgramDecls_congr : ∀ (ds : List Decl) (s s' : GenState)
    (h1 : s'.importedPrompts = s.importedPrompts)
    (h2 : s'.importedSymbols = s.importedSymbols)
    (h3 : s'.definedFlows = s.definedFlows)
    (h4 : s'.hasMainFlow = s.hasMainFlow)
    (_h5 : s'.declaredVariables = s.declaredVariables)
    (h6 : ∀ k, (setContains s.definedFlows k = true ∨ k ∈ flowNamesOf ds) →
      alistGet s'.flowParameters k = alistGet s.flowParameters k),
    (generateProgramDecls s' ds).1 = (generateProgramDecls s ds).1
    ∧ (generateProgramDecls s' ds).2.hasMainFlow =
        (generateProgramDecls s ds).2.hasMainFlow := by
  intro ds
  induction ds with
  | nil => intro s s' _ _ _ h4 _ _; exact ⟨rfl, h4⟩
  | cons d rest ih =>
    intro s s' h1 h2 h3 h4 h5 h6
    cases d with
    | importPrompt p =>
      have hrec := ih (generatePromptImport s p).2 (generatePromptImport s' p).2
        (by show alistSet s'.importedPrompts p.name p = alistSet s.importedPrompts p.name p
            rw [h1])
        (by show s'.importedSymbols = s.importedSymbols; exact h2)
        (by show s'.definedFlows = s.definedFlows; exact h3)
        (by show s'.hasMainFlow = s.hasMainFlow; exact h4)
        (by show s'.declaredVariables = s.declaredVariables; exact h5)
        (fun k hk => h6 k (by
          rcases hk with hk | hk
          · exact Or.inl hk
          · exact Or.inr (by simpa [flowNamesOf] using hk)))
      rcases hr : generateProgramDecls (generatePromptImport s p).2 rest with ⟨r, st⟩
      rcases hr' : generateProgramDecls (generatePromptImport s' p).2 rest with ⟨r', st'⟩
      rw [hr, hr'] at hrec
      simp only [generateProgramDecls, generateDecl, hr, hr']
      have hblock : (generatePromptImport s' p).1 = (generatePromptImport s p).1 := rfl
      rw [hblock] at *
      obtain ⟨hfst, hsnd⟩ := hrec
      subst hfst
      cases r' with
      | error er => exact ⟨rfl, hsnd⟩
      | ok c => exact ⟨rfl, hsnd⟩
    | importSymbol si =>
      have hrec := ih (generateSymbolImport s si).2 (generateSymbolImport s' si).2
        (by show s'.importedPrompts = s.importedPrompts; exact h1)
        (by show si.symbols.foldl (fun m sym => alistSet m sym si.fromPath) s'.importedSymbols =
              si.symbols.foldl (fun m sym => alistSet m sym si.fromPath) s.importedSymbols
            rw [h2])
        (by show s'.definedFlows = s.definedFlows; exact h3)
        (by show s'.hasMainFlow = s.hasMainFlow; exact h4)
        (by show s'.declaredVariables = s.declaredVariables; exact h5)
        (fun k hk => h6 k (by
          rcases hk with hk | hk
          · exact Or.inl hk
          · exact Or.inr (by simpa [flowNamesOf] using hk)))
      rcases hr : generateProgramDecls (generateSymbolImport s si).2 rest with ⟨r, st⟩
      rcases hr' : generateProgramDecls (generateSymbolImport s' si).2 rest with ⟨r', st'⟩
      rw [hr, hr'] at hrec
      simp only [generateProgramDecls, generateDecl, hr, hr']
      obtain ⟨hfst, hsnd⟩ := hrec
      subst hfst
      cases r' with
      | error er => exact ⟨rfl, hsnd⟩
      | ok c => exact ⟨rfl, hsnd⟩
    | flowDefinition f =>
      have hag : EnvAgree
          (envOf { s with
            declaredVariables := f.parameters.map Prod.fst
            definedFlows := setAdd s.definedFlows f.name
            hasMainFlow := s.hasMainFlow || f.name == "Main" })
          (envOf { s' with
            declaredVariables := f.parameters.map Prod.fst
            definedFlows := setAdd s'.definedFlows f.name
            hasMainFlow := s'.hasMainFlow || f.name == "Main" }) := by
        refine ⟨h1, by show setAdd s'.definedFlows f.name = setAdd s.definedFlows f.name
                       rw [h3], ?_⟩
        intro k hk
        have hk' : k ∈ setAdd s.definedFlows f.name := by
          simpa [setContains] using hk
        rcases (mem_setAdd _ _ _).mp hk' with hks | hkf
        · exact h6 k (Or.inl (by simpa [setContains] using hks))
        · refine h6 k (Or.inr ?_)
          have hcons : flowNamesOf (Decl.flowDefinition f :: rest) =
              f.name :: flowNamesOf rest := by simp [flowNamesOf]
          rw [hcons, hkf]
          exact List.mem_cons_self _ _
      have hfs := generateFlowStmts_congr _ _ hag (f.parameters.map Prod.fst) f.body
      rcases hb : generateFlowStmts
          (envOf { s with
            declaredVariables := f.parameters.map Prod.fst
            definedFlows := setAdd s.definedFlows f.name
            hasMainFlow := s.hasMainFlow || f.name == "Main" })
          (f.parameters.map Prod.fst) f.body with ⟨rb, db⟩
      rw [hb] at hfs
      cases rb with
      | error er =>
        simp only [generateProgramDecls, generateDecl, generateFlowDefinition, hb, hfs]
        refine ⟨by trivial, ?_⟩
        show (s'.hasMainFlow || (f.name == "Main")) = (s.hasMainFlow || (f.name == "Main"))
        rw [h4]
      | ok b =>
        have hrec := ih
          { s with
            declaredVariables := db
            definedFlows := setAdd s.definedFlows f.name
            hasMainFlow := s.hasMainFlow || f.name == "Main" }
          { s' with
            declaredVariables := db
            definedFlows := setAdd s'.definedFlows f.name
            hasMainFlow := s'.hasMainFlow || f.name == "Main" }
          h1 h2 (by show setAdd s'.definedFlows f.name = setAdd s.definedFlows f.name; rw [h3])
          (by show (s'.hasMainFlow || (f.name == "Main")) = (s.hasMainFlow || (f.name == "Main"))
              rw [h4])
          rfl
          (fun k hk => h6 k (by
            have hcons : flowNamesOf (Decl.flowDefinition f :: rest) =
                f.name :: flowNamesOf rest := by simp [flowNamesOf]
            rcases hk with hk | hk
            · have hk' : k ∈ setAdd s.definedFlows f.name := by simpa [setContains] using hk
              rcases (mem_setAdd _ _ _).mp hk' with hks | hkf
              · exact Or.inl (by simpa [setContains] using hks)
              · refine Or.inr ?_
                rw [hcons, hkf]
                exact List.mem_cons_self _ _
            · refine Or.inr ?_
              rw [hcons]
              exact List.mem_cons_of_mem _ hk))
        rcases hr : generateProgramDecls
          { s with
            declaredVariables := db
            definedFlows := setAdd s.definedFlows f.name
            hasMainFlow := s.hasMainFlow || f.name == "Main" } rest with ⟨r, st⟩
        rcases hr' : generateProgramDecls
          { s' with
            declaredVariables := db
            definedFlows := setAdd s'.definedFlows f.name
            hasMainFlow := s'.hasMainFlow || f.name == "Main" } rest with ⟨r', st'⟩
        rw [hr, hr'] at hrec
        obtain ⟨hfst, hsnd⟩ := hrec
        subst hfst
        simp only [generateProgramDecls, generateDecl, generateFlowDefinition, hb, hfs]
        rw [hr, hr']
        cases r' with
        | error er => exact ⟨rfl, hsnd⟩
        | ok c => exact ⟨rfl, hsnd⟩


/--
C4 counterexample: after a generate invocation on a program declaring
flow Foo(a), the state at the start of the next invocation (after the
reset at the top of generate) still maps Foo to its parameter list —
the flow-parameter registry is not reset, refuting the claim that all
listed generator state is reset.
-/
theorem c4_flowparams_not_reset_counterexample :
    initGenState.flowParameters = []
    ∧ (resetState ((generate "" initGenState progFoo).2)).flowParameters = [("Foo", ["a"])] :=
  ⟨rfl, rfl⟩

/--
C4: at the start of every generate invocation the prompt-import
registry, the symbol registry, the defined-flow set, the per-scope
declared-variable set and the Main-flow flag are reset, but the
flow-parameter registry is not — entries persist across invocations on
the same instance.  The persisting entries cannot affect the generated
output: a generate invocation from any prior instance state produces
the same result as from a fresh instance, because flow-parameter
lookups only happen for names in the freshly rebuilt defined-flow set,
whose entries the registry pass overwrites.
-/
theorem c4_reset_amended :
    (∀ s : GenState, resetState s = { initGenState with flowParameters := s.flowParameters })
    ∧ ∀ (runtimeCode : String) (s : GenState) (ast : Program),
        (generate runtimeCode s ast).1 = (generate runtimeCode initGenState ast).1 := by
  constructor
  · intro s
    cases s
    rfl
  · intro rc s ast
    have hip : (collectDefinedFlows (resetState initGenState) ast).importedPrompts =
        (collectDefinedFlows (resetState s) ast).importedPrompts := by
      rw [collectDefinedFlows, collectDefinedFlows, (collectFold_fields _ _).1,
        (collectFold_fields _ _).1]
      rfl
    have hsy : (collectDefinedFlows (resetState initGenState) ast).importedSymbols =
        (collectDefinedFlows (resetState s) ast).importedSymbols := by
      rw [collectDefinedFlows, collectDefinedFlows, (collectFold_fields _ _).2.1,
        (collectFold_fields _ _).2.1]
      rfl
    have hdf : (collectDefinedFlows (resetState initGenState) ast).definedFlows =
        (collectDefinedFlows (resetState s) ast).definedFlows := by
      rw [collectDefinedFlows, collectDefinedFlows, collectFold_definedFlows,
        collectFold_definedFlows]
      rfl
    have hhm : (collectDefinedFlows (resetState initGenState) ast).hasMainFlow =
        (collectDefinedFlows (resetState s) ast).hasMainFlow := by
      rw [collectDefinedFlows, collectDefinedFlows, (collectFold_fields _ _).2.2.1,
        (collectFold_fields _ _).2.2.1]
      rfl
    have hdv : (collectDefinedFlows (resetState initGenState) ast).declaredVariables =
        (collectDefinedFlows (resetState s) ast).declaredVariables := by
      rw [collectDefinedFlows, collectDefinedFlows, (collectFold_fields _ _).2.2.2,
        (collectFold_fields _ _).2.2.2]
      rfl
    have h6 : ∀ k, (setContains (collectDefinedFlows (resetState s) ast).definedFlows k = true
        ∨ k ∈ flowNamesOf ast.body) →
        alistGet (collectDefinedFlows (resetState initGenState) ast).flowParameters k =
          alistGet (collectDefinedFlows (resetState s) ast).flowParameters k := by
      intro k hk
      have hk' : k ∈ flowNamesOf ast.body := by
        rcases hk with hk | hk
        · rw [collectDefinedFlows, collectFold_definedFlows] at hk
          have := (by simpa [setContains] using hk :
            k ∈ (flowNamesOf ast.body).foldl setAdd (resetState s).definedFlows)
          rcases (mem_foldl_setAdd _ _ _).mp this with hmem | hmem
          · cases hmem
          · exact hmem
        · exact hk
      rw [collectDefinedFlows, collectDefinedFlows, collectFold_flowParameters,
        collectFold_flowParameters]
      exact foldl_flowParamStep_agree (flowDefsOf ast.body) _ _ k
        (by rw [← flowNamesOf_eq_map]; exact hk')
    obtain ⟨hfst, hmain⟩ := generateProgramDecls_congr ast.body
      (collectDefinedFlows (resetState s) ast)
      (collectDefinedFlows (resetState initGenState) ast) hip hsy hdf hhm hdv h6
    rcases hs : generateProgramDecls (collectDefinedFlows (resetState s) ast) ast.body
      with ⟨r, st⟩
    rcases hi : generateProgramDecls (collectDefinedFlows (resetState initGenState) ast) ast.body
      with ⟨r', st'⟩
    rw [hs, hi] at hfst hmain
    simp only [] at hfst hmain
    subst hfst
    simp only [generate, hs, hi]
    cases r' with
    | error er => rfl
    | ok code =>
      dsimp only
      rw [hmain]

/--
C3 counterexample: the registry pass (collectDefinedFlows, run after
the reset at the top of generate) does not build the prompt-import
registry: on a source declaring prompt P the state after the pass has
an empty importedPrompts map, refuting "a registry pass over all
top-level declarations builds ... (b) the prompt-import-name →
input/return schema registry".
-/
theorem c3_registry_pass_counterexample :
    promptNamesOf srcMixed = ["P"]
    ∧ (collectDefinedFlows (resetState initGenState) (transform srcMixed)).importedPrompts = [] :=
  ⟨rfl, rfl⟩

/--
C3: the pre-generation registry pass builds only the flow registry
(flow name → ordered parameter names) and the defined-flow set; the
prompt registry is instead populated while the import blocks are
generated, which always precedes every flow body because the
transformer orders all imports before all flows.  Hence after
the import phase (state sImp) every declared flow and every prompt import
of the whole source is registered, calls to either are classified
asynchronous (awaited), and every flow block is generated against the
single environment of sImp — so a call whose callee is declared later
in the source text is classified and generated exactly as if the
declaration appeared earlier.
-/
theorem c3_registries_amended (s : GenState) (src : List Decl)
    (hnf : (flowNamesOf src).Nodup) (hnp : (promptNamesOf src).Nodup) :
    ∃ impCode sImp,
      generateProgramDecls (collectDefinedFlows (resetState s) (transform src))
          (src.filter isImportDecl) = (Except.ok impCode, sImp)
      ∧ (∀ f : FlowDefinition, Decl.flowDefinition f ∈ src →
          setContains sImp.definedFlows f.name = true
          ∧ alistGet sImp.flowParameters f.name = some (f.parameters.map Prod.fst)
          ∧ ∀ args : ExprList, isAsyncCall (envOf sImp) (Expr.funcCall f.name args) = true)
      ∧ (∀ p : PromptImport, Decl.importPrompt p ∈ src →
          alistGet sImp.importedPrompts p.name = some p
          ∧ ∀ args : ExprList, isAsyncCall (envOf sImp) (Expr.funcCall p.name args) = true)
      ∧ (generateProgramDecls (collectDefinedFlows (resetState s) (transform src))
            (transform src).body).1 =
          (match flowsBlocksPure (envOf sImp) (src.filter (fun d => !(isImportDecl d))) with
           | Except.error er => Except.error er
           | Except.ok bs => Except.ok (impCode ++ blocksConcat bs)) := by
  have hbody : (transform src).body =
      src.filter isImportDecl ++ src.filter (fun d => !(isImportDecl d)) := rfl
  -- the state after the registry pass
  have hdf2 : (collectDefinedFlows (resetState s) (transform src)).definedFlows =
      (flowNamesOf src).foldl setAdd [] := by
    rw [collectDefinedFlows, collectFold_definedFlows, hbody, flowNamesOf_append,
      flowNamesOf_filter_imports, flowNamesOf_filter_flows]
    rfl
  have hfp2 : (collectDefinedFlows (resetState s) (transform src)).flowParameters =
      (flowDefsOf src).foldl flowParamStep s.flowParameters := by
    rw [collectDefinedFlows, collectFold_flowParameters, hbody, flowDefsOf_append,
      flowDefsOf_filter_imports, flowDefsOf_filter_flows]
    rfl
  have hip2 : (collectDefinedFlows (resetState s) (transform src)).importedPrompts = [] := by
    rw [collectDefinedFlows]
    exact (collectFold_fields _ _).1
  have himps : ∀ d ∈ src.filter isImportDecl, isImportDecl d = true :=
    fun d hd => (List.mem_filter.mp hd).2
  obtain ⟨impCode, sImp, hgen, hP, hDF, hFP, _⟩ :=
    generateProgramDecls_imports (src.filter isImportDecl) himps
      (collectDefinedFlows (resetState s) (transform src))
  have hflowmem : ∀ f : FlowDefinition, Decl.flowDefinition f ∈ src →
      f.name ∈ sImp.definedFlows := by
    intro f hf
    rw [hDF, hdf2, mem_foldl_setAdd]
    right
    simp only [flowNamesOf, List.mem_filterMap]
    exact ⟨Decl.flowDefinition f, hf, rfl⟩
  refine ⟨impCode, sImp, hgen, ?_, ?_, ?_⟩
  · intro f hf
    have hmem := hflowmem f hf
    refine ⟨by simp [setContains, hmem], ?_, ?_⟩
    · rw [hFP, hfp2]
      exact foldl_flowParamStep_lookup (flowDefsOf src) s.flowParameters f
        (by rw [← flowNamesOf_eq_map]; exact hnf)
        (by simp only [flowDefsOf, List.mem_filterMap]; exact ⟨Decl.flowDefinition f, hf, rfl⟩)
    · intro args
      simp [isAsyncCall, envOf, setContains, hmem]
  · intro p hp
    have hlook : alistGet sImp.importedPrompts p.name = some p := by
      rw [hP, hip2]
      exact foldl_promptRegStep_lookup (src.filter isImportDecl) [] p
        (by rw [promptNamesOf_filter_imports]; exact hnp)
        (List.mem_filter.mpr ⟨hp, rfl⟩)
    refine ⟨hlook, ?_⟩
    intro args
    simp [isAsyncCall, envOf, hlook]
  · have happ := generateProgramDecls_append (src.filter isImportDecl)
      (src.filter (fun d => !(isImportDecl d)))
      (collectDefinedFlows (resetState s) (transform src)) impCode sImp hgen
    have hflows := generateProgramDecls_flows (src.filter (fun d => !(isImportDecl d))) sImp
      (fun d hd => by
        have := (List.mem_filter.mp hd).2
        simpa using this)
      (fun g hg => hflowmem g (List.mem_filter.mp hg).1)
    rw [hbody, happ]
    rcases hfb : flowsBlocksPure (envOf sImp) (src.filter (fun d => !(isImportDecl d)))
      with er | bs
    · rw [hfb] at hflows
      simp only [] at hflows
      rw [hflows]
    · rw [hfb] at hflows
      simp only [] at hflows
      rw [hflows]

/--
C3 witness: the amended registry property instantiated on the source
`flow A() ...` followed by `import prompt P ...` (a flow preceding
the import that it could call).
-/
theorem c3_registries_amended_witness :
    ((flowNamesOf srcMixed).Nodup ∧ (promptNamesOf srcMixed).Nodup)
    ∧ ∃ impCode sImp,
      generateProgramDecls (collectDefinedFlows (resetState initGenState) (transform srcMixed))
          (srcMixed.filter isImportDecl) = (Except.ok impCode, sImp)
      ∧ (∀ f : FlowDefinition, Decl.flowDefinition f ∈ srcMixed →
          setContains sImp.definedFlows f.name = true
          ∧ alistGet sImp.flowParameters f.name = some (f.parameters.map Prod.fst)
          ∧ ∀ args : ExprList, isAsyncCall (envOf sImp) (Expr.funcCall f.name args) = true)
      ∧ (∀ p : PromptImport, Decl.importPrompt p ∈ srcMixed →
          alistGet sImp.importedPrompts p.name = some p
          ∧ ∀ args : ExprList, isAsyncCall (envOf sImp) (Expr.funcCall p.name args) = true)
      ∧ (generateProgramDecls (collectDefinedFlows (resetState initGenState) (transform srcMixed))
            (transform srcMixed).body).1 =
          (match flowsBlocksPure (envOf sImp) (srcMixed.filter (fun d => !(isImportDecl d))) with
           | Except.error er => Except.error er
           | Except.ok bs => Except.ok (impCode ++ blocksConcat bs)) :=
  ⟨⟨by decide, by decide⟩,
   c3_registries_amended initGenState srcMixed (by decide) (by decide)⟩

/--
C2: for a program that compiles successfully the output is exactly the
runtime prelude, then one block per import/flow each followed by a
blank line — all import blocks first in source order, then all flow
blocks in source order (the AST transformer groups the CST's imports
before its flows, so the source-level interleaving is not preserved) —
then the Main auto-invocation epilogue exactly when a flow literally
named Main was declared.
-/
theorem c2_layout_amended (runtimeCode : String) (s : GenState) (src : List Decl) (out : String)
    (h : (compileSource runtimeCode s src).1 = Except.ok out) :
    ∃ bs, (declBlocks (collectDefinedFlows (resetState s) (transform src)) (transform src).body).1
        = Except.ok bs
      ∧ out = runtimeCode ++ blocksConcat bs
          ++ (if containsMainFlow src then mainEpilogue else "")
      ∧ (transform src).body =
          src.filter isImportDecl ++ src.filter (fun d => !(isImportDecl d)) := by
  rcases hg : generateProgramDecls (collectDefinedFlows (resetState s) (transform src))
      (transform src).body with ⟨r, s3⟩
  cases r with
  | error er =>
    rw [compileSource, generate] at h
    rw [hg] at h
    simp at h
  | ok code =>
    rw [compileSource, generate] at h
    rw [hg] at h
    simp only [Except.ok.injEq] at h
    have hblocks := generateProgramDecls_eq_declBlocks (transform src).body
      (collectDefinedFlows (resetState s) (transform src))
    rw [hg] at hblocks
    rcases hdb : (declBlocks (collectDefinedFlows (resetState s) (transform src))
        (transform src).body).1 with er | bs
    · rw [hdb] at hblocks
      simp [Except.map] at hblocks
    · rw [hdb] at hblocks
      simp only [Except.map, Except.ok.injEq] at hblocks
      refine ⟨bs, rfl, ?_, rfl⟩
    -- the Main flag after generation equals the source-level Main test
      have hmain := hasMainFlow_generateProgramDecls (transform src).body
        (collectDefinedFlows (resetState s) (transform src)) code s3 hg
      have hcollect := (collectFold_fields (transform src).body (resetState s)).2.2.1
      have hreset : (resetState s).hasMainFlow = false := rfl
      rw [collectDefinedFlows] at hmain
      rw [hcollect, hreset, Bool.false_or, containsMainFlow_transform] at hmain
      rw [← h, hblocks.1, hmain]
/--
C2 witness: compiling the program `flow A() \x7b return 1 \x7d` then
`import prompt P` produces the import block followed by the flow block,
each followed by a blank line, with no Main epilogue.
-/
theorem c2_layout_amended_witness :
    (∃ out, (compileSource "PRE;\n" initGenState srcMixed).1 = Except.ok out
      ∧ ∃ bs, (declBlocks (collectDefinedFlows (resetState initGenState) (transform srcMixed))
            (transform srcMixed).body).1 = Except.ok bs
        ∧ out = "PRE;\n" ++ blocksConcat bs
            ++ (if containsMainFlow srcMixed then mainEpilogue else "")
        ∧ (transform srcMixed).body =
            srcMixed.filter isImportDecl ++ srcMixed.filter (fun d => !(isImportDecl d))) := by
  refine ⟨("PRE;\n" ++ blocksConcat [(generatePromptImport
      (collectDefinedFlows (resetState initGenState) (transform srcMixed)) promptP).1,
      "// Flow: A\nasync function A() \x7b\n  try \x7b\n    return 1;\n  \x7d catch (error) \x7b\n    console.error(`Error in flow A: $\x7berror.message\x7d`);\n    throw error;\n  \x7d\n\x7d"]
      ++ ""), by rfl, ?_⟩
  exact c2_layout_amended "PRE;\n" initGenState srcMixed _ (by rfl)

/--
C2 counterexample: for the source text declaring flow A before import
prompt P, the generated output equals the output for the
hoisted order (import P's block first, then flow A's block) and
differs from the output laid out in source order, refuting "one
declaration block per import/flow in the order those declarations
appear in the source text".
-/
theorem c2_source_order_counterexample :
    (compileSource "PRE;\n" initGenState srcMixed).1 =
        (generate "PRE;\n" initGenState ⟨[Decl.importPrompt promptP, Decl.flowDefinition flowA]⟩).1
    ∧ (compileSource "PRE;\n" initGenState srcMixed).1 ≠
        (generate "PRE;\n" initGenState ⟨srcMixed⟩).1 := by
  constructor
  · rfl
  · intro h
    have hc : ('P' : Char) = 'F' :=
      congrArg (fun r => match r with
        | Except.ok so => so.data.getD 8 ' '
        | Except.error _ => ' ') h
    exact absurd hc (by decide)


end Pronto
